import Mathlib

/-!
# Order service (`order-service/src/index.js`): a shallow embedding

The three mutating handlers of the order service, `POST /orders`,
`PATCH /orders/:id/status` and `PATCH /orders/:id/payment`, are embedded as
pure functions over an explicit world:

* the `orders` collection (what MongoDB holds),
* the state of the product service behind `axios` (an arbitrary state machine),
* the ordered log of every outbound call a handler has issued.

The numbers a request or a product document carries are rationals; every
number a handler computes is the IEEE double JavaScript computes (`JsNumber`:
round to nearest, ties to even, overflow to an infinity).  Everything a handler
reads from outside the request (clock, fresh identifiers, whether a database
call or a queue send rejects) is an explicit input, `Ctx`.

`generateOrderNumber` is embedded on its own, and the routes
`GET /products/:id` and `PATCH /products/:id/stock` of the product service
(`product-service/src/index.js`) are embedded as one instance of the
collaborator the order service talks to, the cast of an `:id` to an `ObjectId`
being a parameter of that instance.
-/

namespace OrderService

set_option maxRecDepth 100000

/-! ## JavaScript numbers -/

/-- A JavaScript number: a finite double (as the rational it denotes, the two
zeros being one), an infinity, or `NaN`. -/
inductive JsNumber
  | finite (value : ℚ)
  | posInf
  | negInf
  | nan
  deriving DecidableEq

/-- A numeric literal denotes the finite number of that value. -/
instance (n : Nat) : OfNat JsNumber n := ⟨.finite n⟩

/-- The quotient `n / d` rounded to the nearest integer, ties to even. -/
def roundHalfEven (n d : Nat) : Nat :=
  if 2 * (n % d) < d then n / d
  else if d < 2 * (n % d) then n / d + 1
  else if (n / d) % 2 = 0 then n / d
  else n / d + 1

/-- The largest `e` with `2 ^ e ≤ n` for positive `n`, found in at most `fuel`
halvings. -/
def log2Aux : Nat → Nat → Nat
  | 0, _ => 0
  | fuel + 1, n => if n < 2 then 0 else log2Aux fuel (n / 2) + 1

/-- The largest `e` with `2 ^ e ≤ n / d`, for positive `n` and `d`. -/
def binaryExponent (n d : Nat) : Int :=
  let e : Int := (log2Aux n n : Int) - (log2Aux d d : Int)
  if 0 ≤ e then (if d * 2 ^ e.toNat ≤ n then e else e - 1)
  else (if d ≤ n * 2 ^ (-e).toNat then e else e - 1)

/-- The rational `x` rounded to the nearest number with a 53-bit significand
(ties to even), the exponent being unbounded above and stopping at the
subnormal spacing `2 ^ (-1074)` below. -/
def roundDouble (x : ℚ) : ℚ :=
  if x = 0 then 0
  else
    let n := x.num.natAbs
    let d := x.den
    let k : Int := 52 - max (binaryExponent n d) (-1022)
    let r : ℚ :=
      if 0 ≤ k then ((roundHalfEven (n * 2 ^ k.toNat) d : Nat) : ℚ) / ((2 ^ k.toNat : Nat) : ℚ)
      else ((roundHalfEven n (d * 2 ^ (-k).toNat) : Nat) : ℚ) * ((2 ^ (-k).toNat : Nat) : ℚ)
    if x < 0 then -r else r

/-- The largest finite double, `(2 ^ 53 - 1) * 2 ^ 971`. -/
def maxDouble : ℚ :=
  179769313486231570814527423731704356798070567525844996598917476803157260780028538760589558632766878171540458953514382464234321326889464182768467546703537516986049910576551282076245490090389328944075868508455133942304583236903222948165808559332123348274797826204144723168738177180919299881250404026184124858368

/-- The double an exact result is delivered as: rounded to nearest, an
infinity when the rounded value is beyond the largest finite double. -/
def toDouble (x : ℚ) : JsNumber :=
  if maxDouble < roundDouble x then .posInf
  else if roundDouble x < -maxDouble then .negInf
  else .finite (roundDouble x)

/-- The JavaScript sum `a + b` of two numbers. -/
def jsAdd : JsNumber → JsNumber → JsNumber
  | .finite a, .finite b => toDouble (a + b)
  | .nan, _ => .nan
  | _, .nan => .nan
  | .posInf, .negInf => .nan
  | .negInf, .posInf => .nan
  | .posInf, _ => .posInf
  | _, .posInf => .posInf
  | .negInf, _ => .negInf
  | _, .negInf => .negInf

/-- The JavaScript negation `-a`. -/
def jsNeg : JsNumber → JsNumber
  | .finite a => .finite (-a)
  | .posInf => .negInf
  | .negInf => .posInf
  | .nan => .nan

/-- The JavaScript difference `a - b` of two numbers. -/
def jsSub (a b : JsNumber) : JsNumber :=
  jsAdd a (jsNeg b)

/-- The sign of a number that is not `NaN`: 1, 0 or -1. -/
def JsNumber.sign : JsNumber → Int
  | .finite a => if 0 < a then 1 else if a < 0 then -1 else 0
  | .posInf => 1
  | .negInf => -1
  | .nan => 0

/-- The JavaScript product `a * b` of two numbers. -/
def jsMul : JsNumber → JsNumber → JsNumber
  | .finite a, .finite b => toDouble (a * b)
  | .nan, _ => .nan
  | _, .nan => .nan
  | a, b =>
    if a.sign * b.sign = 0 then .nan
    else if 0 < a.sign * b.sign then .posInf
    else .negInf

/-- The JavaScript comparison `a < b`. -/
def jsLt : JsNumber → JsNumber → Bool
  | .finite a, .finite b => decide (a < b)
  | .nan, _ => false
  | _, .nan => false
  | .negInf, .negInf => false
  | .negInf, _ => true
  | _, .negInf => false
  | .posInf, _ => false
  | _, .posInf => true

/-- The double the literal `0.1` denotes. -/
def tenth : ℚ := 3602879701896397 / 36028797018963968

/-! ## Data model (`orderItemSchema`, `orderSchema`) -/

/-- The `status` enum of `orderSchema`. -/
inductive Status
  | pending | confirmed | processing | shipped | delivered | cancelled
  deriving DecidableEq

/-- The `paymentStatus` enum of `orderSchema`. -/
inductive PaymentStatus
  | pending | paid | failed | refunded
  deriving DecidableEq

/-- The string a `Status` is stored and transmitted as. -/
def Status.toString : Status → String
  | .pending => "pending"
  | .confirmed => "confirmed"
  | .processing => "processing"
  | .shipped => "shipped"
  | .delivered => "delivered"
  | .cancelled => "cancelled"

/-- Membership test `validStatuses.includes(status)` of the status handler,
returning the enum value the string denotes. -/
def Status.ofString (s : String) : Option Status :=
  if s = "pending" then some .pending
  else if s = "confirmed" then some .confirmed
  else if s = "processing" then some .processing
  else if s = "shipped" then some .shipped
  else if s = "delivered" then some .delivered
  else if s = "cancelled" then some .cancelled
  else none

/-- The string a `PaymentStatus` is stored and transmitted as. -/
def PaymentStatus.toString : PaymentStatus → String
  | .pending => "pending"
  | .paid => "paid"
  | .failed => "failed"
  | .refunded => "refunded"

/-- Membership test `validStatuses.includes(paymentStatus)` of the payment
handler, returning the enum value the string denotes. -/
def PaymentStatus.ofString (s : String) : Option PaymentStatus :=
  if s = "pending" then some .pending
  else if s = "paid" then some .paid
  else if s = "failed" then some .failed
  else if s = "refunded" then some .refunded
  else none

/-- One element of `order.items` (`orderItemSchema`). -/
structure OrderItem where
  productId : String
  productName : String
  quantity : ℚ
  price : ℚ
  subtotal : JsNumber
  deriving DecidableEq

/-- One element of `order.statusHistory`; `timestamp` defaults to `Date.now`. -/
structure HistoryEntry where
  status : Status
  timestamp : Nat
  note : String
  deriving DecidableEq

/-- The `shippingAddress` sub-document. -/
structure ShippingAddress where
  street : String
  city : String
  state : Option String
  zipCode : String
  country : String
  deriving DecidableEq

/-- A document of the `Order` model. -/
structure Order where
  _id : String
  orderNumber : String
  userId : String
  userEmail : String
  items : List OrderItem
  status : Status
  shippingAddress : ShippingAddress
  paymentMethod : String
  paymentStatus : PaymentStatus
  subtotal : JsNumber
  tax : JsNumber
  shipping : JsNumber
  total : JsNumber
  notes : Option String
  statusHistory : List HistoryEntry
  createdAt : Nat
  updatedAt : Nat
  deriving DecidableEq

/-! ## Requests and responses -/

/-- One element of `req.body.items`. -/
structure RequestItem where
  productId : String
  quantity : ℚ
  deriving DecidableEq

/-- The body of `POST /orders`. -/
structure OrderRequest where
  userId : String
  userEmail : String
  items : List RequestItem
  shippingAddress : ShippingAddress
  paymentMethod : String
  notes : Option String
  deriving DecidableEq

/-- The `error` member of a failure body. -/
inductive ErrorBody
  /-- The text `error.details[0].message` of Joi, for the key with this label. -/
  | validation (label : String)
  /-- The text "Product <productId> not found". -/
  | productNotFound (productId : String)
  /-- The text "Insufficient stock for product <name>. Available: <stock>". -/
  | insufficientStock (productName : String) (available : ℚ)
  /-- The text "Status is required". -/
  | statusRequired
  /-- The text "Invalid status". -/
  | invalidStatus
  /-- The text "Order not found". -/
  | orderNotFound
  /-- The text "Cannot cancel order in current status". -/
  | cannotCancel
  /-- The text "Payment status is required". -/
  | paymentStatusRequired
  /-- The text "Invalid payment status". -/
  | invalidPaymentStatus
  /-- The text "Internal server error". -/
  | internalServerError
  deriving DecidableEq

/-- What a handler sends: `res.status(code).json(order)` or
`res.status(code).json(error)` (an absent `status` call is code 200). -/
inductive Response
  | json (code : Nat) (order : Order)
  | error (code : Nat) (error : ErrorBody)
  deriving DecidableEq

/-! ## Collaborators -/

/-- The `operation` member of the stock request body. -/
inductive StockOp
  | add | subtract
  deriving DecidableEq

/-- The part of the product document the order service reads. -/
structure Product where
  name : String
  price : ℚ
  stock : ℚ
  deriving DecidableEq

/-- What `axios.get` on `/products/:id` does: resolve with the product, or
reject because of a 404 answer or because the service cannot be reached. -/
inductive InventoryReply
  | found (product : Product)
  | notFound
  | unreachable
  deriving DecidableEq

/-- The events handed to `publishOrderEvent`. -/
inductive Event
  | order_created (orderId orderNumber userId : String) (total : JsNumber) (timestamp : Nat)
  | order_status_updated (orderId orderNumber : String) (oldStatus newStatus : Status)
      (timestamp : Nat)
  | payment_status_updated (orderId orderNumber : String) (paymentStatus : PaymentStatus)
      (timestamp : Nat)
  deriving DecidableEq

/-- An outbound call of a handler, as it appears in the world's call log. -/
inductive Call
  /-- `axios.get` on `/products/<productId>`. -/
  | getProduct (productId : String)
  /-- `axios.patch` on `/products/<productId>/stock` with `quantity` and `operation`. -/
  | patchStock (productId : String) (quantity : ℚ) (operation : StockOp)
  /-- `rabbitChannel.sendToQueue` on `order_events`. -/
  | sendToQueue (event : Event)
  /-- `Order.findById`. -/
  | findById (id : String)
  /-- `Order.findByIdAndUpdate` setting `paymentStatus` and `updatedAt`. -/
  | findByIdAndUpdate (id : String) (paymentStatus : PaymentStatus) (updatedAt : Nat)
  /-- `order.save()`. -/
  | save (order : Order)
  deriving DecidableEq

/-- Code the handlers call that lives outside the repository: the e-mail rule
of Joi and the product service, the latter as a state machine over `σ` whose
`patchStock` answers `true` for a 2xx answer and `false` when `axios` rejects. -/
structure Env (σ : Type) where
  isEmail : String → Bool
  getProduct : σ → String → InventoryReply × σ
  patchStock : σ → String → ℚ → StockOp → Bool × σ

/-- What one run of a handler reads from outside the request. -/
structure Ctx where
  /-- The clock (`Date.now`, `new Date()`). -/
  now : Nat
  /-- The `_id` mongoose gives to `new Order(..)`. -/
  objectId : String
  /-- The value of `generateOrderNumber()`. -/
  orderNumber : String
  /-- Whether `Order.findById` / `Order.findByIdAndUpdate` resolves rather than
  rejects (as it does for an identifier that cannot be cast to an ObjectId, or
  without a connection). -/
  findOk : Bool
  /-- Whether `order.save()` resolves rather than rejects (a validator of the
  schema that fails, a lost connection). -/
  saveOk : Bool
  /-- The global `rabbitChannel`: `none` when it is `null`, otherwise whether
  `sendToQueue` returns (`true`) or throws (`false`). -/
  rabbitChannel : Option Bool
  deriving DecidableEq

/-- The world a handler runs in. -/
structure World (σ : Type) where
  /-- The `orders` collection, oldest document first. -/
  orders : List Order
  /-- The state of the product service. -/
  inventory : σ
  /-- Every outbound call issued so far, oldest first. -/
  calls : List Call

/-! ## The order collection -/

/-- The document `Order.findById(id)` resolves with, if any. -/
def findById (orders : List Order) (id : String) : Option Order :=
  orders.find? (fun o => o._id = id)

/-- The collection after writing back an already stored document: the
document with the same `_id` is replaced and every other one is kept. -/
def replaceOrder : List Order → Order → List Order
  | [], _ => []
  | o :: rest, order =>
    if o._id = order._id then order :: rest else o :: replaceOrder rest order

/-- Whether `save` of a new document is accepted: the database call resolves
and neither `_id` nor `orderNumber` (declared `unique`) is already present. -/
def insertAccepted (ctx : Ctx) (orders : List Order) (order : Order) : Bool :=
  ctx.saveOk && orders.all (fun o => o._id ≠ order._id && o.orderNumber ≠ order.orderNumber)

/-! ## Helpers of the handlers -/

/-- Joi's `string()` rule: the empty string is not allowed. -/
def joiString (s : String) : Bool := s ≠ ""

/-- The item rules of `validateOrder`, applied to the elements in order from
index `i`; the result is the label of the first key that breaks a rule.  Joi's
`number()` refuses a value beyond `Number.MAX_SAFE_INTEGER`, `min(1)` a value
below 1. -/
def validateItems : List RequestItem → Nat → Option String
  | [], _ => none
  | item :: rest, i =>
    if !joiString item.productId then some ("items[" ++ toString i ++ "].productId")
    else if item.quantity < 1 ∨ 9007199254740991 < item.quantity then
      some ("items[" ++ toString i ++ "].quantity")
    else validateItems rest (i + 1)

/-- The payment methods `validateOrder` admits. -/
def paymentMethods : List String := ["credit_card", "debit_card", "paypal", "bank_transfer"]

/-- The function `validateOrder`: `none` when Joi reports no error, otherwise
the label of the first key that breaks a rule (keys in schema order). -/
def validateOrder {σ : Type} (env : Env σ) (order : OrderRequest) : Option String :=
  if !joiString order.userId then some "userId"
  else if !(joiString order.userEmail && env.isEmail order.userEmail) then some "userEmail"
  else match validateItems order.items 0 with
  | some label => some label
  | none =>
    if order.items.length < 1 then some "items"
    else if !joiString order.shippingAddress.street then some "shippingAddress.street"
    else if !joiString order.shippingAddress.city then some "shippingAddress.city"
    else if order.shippingAddress.state = some "" then some "shippingAddress.state"
    else if !joiString order.shippingAddress.zipCode then some "shippingAddress.zipCode"
    else if !joiString order.shippingAddress.country then some "shippingAddress.country"
    else if order.paymentMethod ∉ paymentMethods then some "paymentMethod"
    else if order.notes = some "" then some "notes"
    else none

/-- The function `publishOrderEvent`: with a channel, one `sendToQueue` whose
failure is caught; without one, nothing. -/
def publishOrderEvent {σ : Type} (ctx : Ctx) (w : World σ) (event : Event) : World σ :=
  match ctx.rabbitChannel with
  | some _ => { w with calls := w.calls ++ [Call.sendToQueue event] }
  | none => w

/-- The function `validateProductAndGetDetails`: the product on a 2xx answer,
`null` (here `none`) whenever `axios.get` rejects. -/
def validateProductAndGetDetails {σ : Type} (env : Env σ) (w : World σ) (productId : String) :
    Option Product × World σ :=
  let r := env.getProduct w.inventory productId
  let w1 : World σ := { w with inventory := r.2, calls := w.calls ++ [Call.getProduct productId] }
  match r.1 with
  | .found product => (some product, w1)
  | .notFound => (none, w1)
  | .unreachable => (none, w1)

/-- The function `updateProductStock`: `true` on a 2xx answer, `false`
whenever `axios.patch` rejects. -/
def updateProductStock {σ : Type} (env : Env σ) (w : World σ) (productId : String)
    (quantity : ℚ) (operation : StockOp) : Bool × World σ :=
  let r := env.patchStock w.inventory productId quantity operation
  (r.1, { w with inventory := r.2,
                 calls := w.calls ++ [Call.patchStock productId quantity operation] })

/-- The loop `for (const item of ...) await updateProductStock(.., operation)`
of both handlers; the boolean results are discarded. -/
def updateStockForItems {σ : Type} (env : Env σ) (operation : StockOp) :
    World σ → List OrderItem → World σ
  | w, [] => w
  | w, item :: rest =>
    updateStockForItems env operation
      (updateProductStock env w item.productId item.quantity operation).2 rest

/-! ## `POST /orders` -/

/-- The first loop of `POST /orders` from the point where `orderItems` and
`subtotal` hold the given values: either the early 400 answer, or the final
`orderItems` and `subtotal`. -/
def collectItems {σ : Type} (env : Env σ) :
    World σ → List RequestItem → List OrderItem → JsNumber →
      World σ × Except Response (List OrderItem × JsNumber)
  | w, [], orderItems, subtotal => (w, .ok (orderItems, subtotal))
  | w, item :: rest, orderItems, subtotal =>
    match validateProductAndGetDetails env w item.productId with
    | (none, w1) => (w1, .error (.error 400 (.productNotFound item.productId)))
    | (some product, w1) =>
      if product.stock < item.quantity then
        (w1, .error (.error 400 (.insufficientStock product.name product.stock)))
      else
        let itemSubtotal := jsMul (.finite product.price) (.finite item.quantity)
        collectItems env w1 rest
          (orderItems ++ [{ productId := item.productId, productName := product.name,
                            quantity := item.quantity, price := product.price,
                            subtotal := itemSubtotal }])
          (jsAdd subtotal itemSubtotal)

/-- The document `new Order(..)` of `POST /orders` builds from the request and
the result of the first loop; `status` and `paymentStatus` take the schema
defaults. -/
def newOrder (ctx : Ctx) (body : OrderRequest) (orderItems : List OrderItem)
    (subtotal : JsNumber) : Order :=
  let tax := jsMul subtotal (.finite tenth)
  let shipping : JsNumber := if jsLt 100 subtotal then 0 else 10
  let total := jsAdd (jsAdd subtotal tax) shipping
  { _id := ctx.objectId
    orderNumber := ctx.orderNumber
    userId := body.userId
    userEmail := body.userEmail
    items := orderItems
    status := .pending
    shippingAddress := body.shippingAddress
    paymentMethod := body.paymentMethod
    paymentStatus := .pending
    subtotal := subtotal
    tax := tax
    shipping := shipping
    total := total
    notes := body.notes
    statusHistory := [{ status := .pending, timestamp := ctx.now, note := "Order created" }]
    createdAt := ctx.now
    updatedAt := ctx.now }

/-- The handler of `POST /orders`. -/
def createOrder {σ : Type} (env : Env σ) (ctx : Ctx) (w : World σ) (body : OrderRequest) :
    World σ × Response :=
  match validateOrder env body with
  | some label => (w, .error 400 (.validation label))
  | none =>
    match collectItems env w body.items [] 0 with
    | (w1, .error response) => (w1, response)
    | (w1, .ok (orderItems, subtotal)) =>
      let order := newOrder ctx body orderItems subtotal
      let w2 : World σ := { w1 with calls := w1.calls ++ [Call.save order] }
      if !insertAccepted ctx w2.orders order then (w2, .error 500 .internalServerError)
      else
        let w3 : World σ := { w2 with orders := w2.orders ++ [order] }
        let w4 := updateStockForItems env .subtract w3 orderItems
        let w5 := publishOrderEvent ctx w4
          (.order_created order._id order.orderNumber order.userId order.total ctx.now)
        (w5, .json 201 order)

/-! ## `PATCH /orders/:id/status` -/

/-- JavaScript truthiness of an optional string member of a request body:
absent and the empty string are falsy. -/
def truthy : Option String → Bool
  | some s => s ≠ ""
  | none => false

/-- The expression ``note || `Status changed to ${status}` ``. -/
def historyNote (note : Option String) (status : Status) : String :=
  match note with
  | some s => if s ≠ "" then s else "Status changed to " ++ status.toString
  | none => "Status changed to " ++ status.toString

/-- The guard of the status handler that answers "Cannot cancel order in
current status". -/
def cancelRefused (status current : Status) : Bool :=
  status = .cancelled && current ≠ .pending && current ≠ .confirmed

/-- The handler of `PATCH /orders/:id/status`; `status` and `note` are the
members of the body. -/
def updateStatus {σ : Type} (env : Env σ) (ctx : Ctx) (w : World σ) (id : String)
    (status note : Option String) : World σ × Response :=
  if !truthy status then (w, .error 400 .statusRequired)
  else
    match Status.ofString (status.getD "") with
    | none => (w, .error 400 .invalidStatus)
    | some status =>
      let w1 : World σ := { w with calls := w.calls ++ [Call.findById id] }
      if !ctx.findOk then (w1, .error 500 .internalServerError)
      else
        match findById w1.orders id with
        | none => (w1, .error 404 .orderNotFound)
        | some stored =>
          if cancelRefused status stored.status then (w1, .error 400 .cannotCancel)
          else
            let order : Order :=
              { stored with
                status := status
                statusHistory := stored.statusHistory ++
                  [{ status := status, timestamp := ctx.now, note := historyNote note status }]
                updatedAt := ctx.now }
            let w2 := if status = .cancelled then updateStockForItems env .add w1 order.items
                      else w1
            let w3 : World σ := { w2 with calls := w2.calls ++ [Call.save order] }
            if !ctx.saveOk then (w3, .error 500 .internalServerError)
            else
              let w4 : World σ := { w3 with orders := replaceOrder w3.orders order }
              let w5 := publishOrderEvent ctx w4
                (.order_status_updated order._id order.orderNumber order.status status ctx.now)
              (w5, .json 200 order)

/-! ## `PATCH /orders/:id/payment` -/

/-- The handler of `PATCH /orders/:id/payment`; `paymentStatus` is the member
of the body. -/
def updatePayment {σ : Type} (ctx : Ctx) (w : World σ) (id : String)
    (paymentStatus : Option String) : World σ × Response :=
  if !truthy paymentStatus then (w, .error 400 .paymentStatusRequired)
  else
    match PaymentStatus.ofString (paymentStatus.getD "") with
    | none => (w, .error 400 .invalidPaymentStatus)
    | some paymentStatus =>
      let w1 : World σ :=
        { w with calls := w.calls ++ [Call.findByIdAndUpdate id paymentStatus ctx.now] }
      if !ctx.findOk then (w1, .error 500 .internalServerError)
      else
        match findById w1.orders id with
        | none => (w1, .error 404 .orderNotFound)
        | some stored =>
          let order : Order := { stored with paymentStatus := paymentStatus, updatedAt := ctx.now }
          let w2 : World σ := { w1 with orders := replaceOrder w1.orders order }
          if paymentStatus = .paid ∧ order.status = .pending then
            let order1 : Order :=
              { order with
                status := .confirmed
                statusHistory := order.statusHistory ++
                  [{ status := .confirmed, timestamp := ctx.now, note := "Payment received" }] }
            let w3 : World σ := { w2 with calls := w2.calls ++ [Call.save order1] }
            if !ctx.saveOk then (w3, .error 500 .internalServerError)
            else
              let w4 : World σ := { w3 with orders := replaceOrder w3.orders order1 }
              let w5 := publishOrderEvent ctx w4
                (.payment_status_updated order1._id order1.orderNumber paymentStatus ctx.now)
              (w5, .json 200 order1)
          else
            let w3 := publishOrderEvent ctx w2
              (.payment_status_updated order._id order.orderNumber paymentStatus ctx.now)
            (w3, .json 200 order)

/-! ## `generateOrderNumber` -/

/-- The character `toString(36)` writes for a digit value below 36: `0`-`9`,
then `a`-`z`. -/
def digit36 (d : Nat) : Char :=
  if d < 10 then Char.ofNat (48 + d) else Char.ofNat (87 + d)

/-- The base-36 digits of `n`, most significant first, in front of `acc`;
`fuel` bounds the number of divisions. -/
def toString36Aux : Nat → Nat → List Char → List Char
  | 0, n, acc => digit36 (n % 36) :: acc
  | fuel + 1, n, acc =>
    if n < 36 then digit36 n :: acc
    else toString36Aux fuel (n / 36) (digit36 (n % 36) :: acc)

/-- The string `n.toString(36)` for a non-negative integer `n`, as in
`Date.now().toString(36)`. -/
def toString36 (n : Nat) : String :=
  String.mk (toString36Aux n n [])

/-- The string `s.substr(start, length)`. -/
def substr (s : String) (start length : Nat) : String :=
  String.mk ((s.toList.drop start).take length)

/-- The string `s.toUpperCase()`, for a string of ASCII characters. -/
def toUpperCase (s : String) : String :=
  String.mk (s.toList.map Char.toUpper)

/-- The function `generateOrderNumber`.  `now` is the value of `Date.now()`;
`random36` is the value of `Math.random().toString(36)`, the string "0" for
the draw 0 and otherwise "0." followed by the base-36 digits the runtime
writes for the draw (for the draw 0.5, one digit: "0.i"). -/
def generateOrderNumber (now : Nat) (random36 : String) : String :=
  let timestamp := toString36 now
  let random := substr random36 2 5
  toUpperCase ("ORD-" ++ timestamp ++ "-" ++ random)

/-! ## The product service (`product-service/src/index.js`) -/

/-- The state of the product service: the `products` collection by `_id` (an
`_id` written as mongoose renders it, in 24 hexadecimal digits), the Redis
entries `product:<key>` by key (their expiry after 300 seconds is left out: no
time passes within a run), whether the Redis client is open, and mongoose's
cast of the `:id` of a request to an `ObjectId`: the `_id` the string is cast
to, `none` when the cast is refused (the query then rejects). -/
structure Shop where
  products : String → Option Product
  cache : String → Option Product
  redisOpen : Bool
  castObjectId : String → Option String

/-- The function `getCachedProduct`. -/
def getCachedProduct (shop : Shop) (productId : String) : Option Product :=
  if shop.redisOpen then shop.cache productId else none

/-- The function `cacheProduct`. -/
def cacheProduct (shop : Shop) (productId : String) (product : Product) : Shop :=
  if shop.redisOpen then
    { shop with cache := fun k => if k = productId then some product else shop.cache k }
  else shop

/-- The handler of `GET /products/:id`, the database answering: the copy
cached under the `:id` of the request if there is one; otherwise
`Product.findById`, which rejects (answer 500) when the `:id` cannot be cast,
answers 404 when no document has the `_id`, and otherwise gives the stored
document, which is then cached under its `_id`. -/
def getProductRoute (shop : Shop) (id : String) : InventoryReply × Shop :=
  match getCachedProduct shop id with
  | some cached => (.found cached, shop)
  | none =>
    match shop.castObjectId id with
    | none => (.unreachable, shop)
    | some oid =>
      match shop.products oid with
      | none => (.notFound, shop)
      | some product => (.found product, cacheProduct shop oid product)

/-- The end of the handler of `PATCH /products/:id/stock`: `product.save()`
with the new stock, rejected by the validator `min: 0` when the stock is below
zero and by the cast to a number when it is `NaN` (the stored document passing
the other validators of the schema), then the deletion of the copy cached
under the `_id` when Redis is open.  A stock of `Infinity` is what the sum of
a stock and a quantity is only when it passes the largest double, which no
quantity `validateOrder` admits brings about; `Product.stock` cannot hold it,
and here the answer is 2xx with the state left as it is. -/
def saveStock (shop : Shop) (oid : String) (product : Product) (stock : JsNumber) :
    Bool × Shop :=
  match stock with
  | .finite value =>
    if value < 0 then (false, shop)
    else
      (true,
       { shop with
         products := fun k => if k = oid then some { product with stock := value }
                              else shop.products k
         cache := if shop.redisOpen then fun k => if k = oid then none else shop.cache k
                  else shop.cache })
  | .posInf => (true, shop)
  | .negInf => (false, shop)
  | .nan => (false, shop)

/-- The handler of `PATCH /products/:id/stock`, the database answering; the
boolean is whether the answer is 2xx.  A quantity of zero is answered 400, an
`:id` that cannot be cast 500, an unknown product 404, a `subtract` beyond the
stock 400; the new stock is the JavaScript sum or difference of the stored
stock and the quantity. -/
def patchStockRoute (shop : Shop) (id : String) (quantity : ℚ) (operation : StockOp) :
    Bool × Shop :=
  if quantity = 0 then (false, shop)
  else
    match shop.castObjectId id with
    | none => (false, shop)
    | some oid =>
      match shop.products oid with
      | none => (false, shop)
      | some product =>
        match operation with
        | .add => saveStock shop oid product (jsAdd (.finite product.stock) (.finite quantity))
        | .subtract =>
          if product.stock < quantity then (false, shop)
          else saveStock shop oid product (jsSub (.finite product.stock) (.finite quantity))

/-- The product service as the collaborator of the order service. -/
def productService (isEmail : String → Bool) : Env Shop where
  isEmail := isEmail
  getProduct := getProductRoute
  patchStock := patchStockRoute

/-! ## Vocabulary of the statements -/

/-- The stock the product service stores for the product of `_id` `oid`, if it
stores the product. -/
def stockOf (shop : Shop) (oid : String) : Option ℚ :=
  (shop.products oid).map (fun product => product.stock)

/-- The sum of the quantities that the pairs of `productId` and quantity ask
of the product of `_id` `oid`, a `productId` naming the product it is cast
to. -/
def askedOf (cast : String → Option String) (pairs : List (String × ℚ)) (oid : String) : ℚ :=
  ((pairs.filter (fun pair => cast pair.1 = some oid)).map (fun pair => pair.2)).sum

/-- The sum of the quantities a creation request asks of the product of `_id`
`oid`. -/
def requested (cast : String → Option String) (items : List RequestItem) (oid : String) : ℚ :=
  askedOf cast (items.map (fun item => (item.productId, item.quantity))) oid

/-- The pairs of `productId` and quantity of the items of an order. -/
def pairsOf (items : List OrderItem) : List (String × ℚ) :=
  items.map (fun item => (item.productId, item.quantity))

/-- The product service in a state it keeps itself in: the `_id` of a stored
document is cast to itself, and every cached copy the service would serve is
cached under the `_id` of the stored document it is a copy of. -/
def shopConsistent (shop : Shop) : Prop :=
  (∀ oid product, shop.products oid = some product → shop.castObjectId oid = some oid) ∧
  (∀ id cached, getCachedProduct shop id = some cached →
    shop.castObjectId id = some id ∧ shop.products id = some cached)

/-- Whether a character is a hexadecimal digit. -/
def isHexDigit (c : Char) : Bool :=
  c.isDigit || (97 ≤ c.toNat && c.toNat ≤ 102) || (65 ≤ c.toNat && c.toNat ≤ 70)

/-- A cast to `ObjectId` that admits the strings of 24 hexadecimal digits
alone, each as the `_id` it spells, rendered in lower case. -/
def castHex24 (id : String) : Option String :=
  if id.length = 24 ∧ id.toList.all isHexDigit then some (String.mk (id.toList.map Char.toLower))
  else none

/-- Whether a character is in the class `[A-Z0-9]`. -/
def isUpperAlnum (c : Char) : Bool :=
  c.isUpper || c.isDigit

/-- Whether a string matches `ORD-[A-Z0-9]+-[A-Z0-9]{5}` from its first to its
last character. -/
def matchesOrderNumber (s : String) : Bool :=
  let rest := s.toList.drop 4
  let time := rest.takeWhile isUpperAlnum
  let tail := rest.dropWhile isUpperAlnum
  decide (s.toList.take 4 = "ORD-".toList) && !time.isEmpty &&
    decide (tail.take 1 = "-".toList) &&
    decide ((tail.drop 1).length = 5) && (tail.drop 1).all isUpperAlnum


/-- Whether every item of a creation request, looked up in list order from
inventory state `s`, is found with `quantity ≤ stock`. -/
def allItemsPass {σ : Type} (env : Env σ) : σ → List RequestItem → Bool
  | _, [] => true
  | s, item :: rest =>
    match env.getProduct s item.productId with
    | (.found product, s1) => decide (item.quantity ≤ product.stock) && allItemsPass env s1 rest
    | (.notFound, _) => false
    | (.unreachable, _) => false

/-- The state of the product service after it has answered one lookup per
item, in list order, from state `s`. -/
def inventoryAfterLookups {σ : Type} (env : Env σ) : σ → List RequestItem → σ
  | s, [] => s
  | s, item :: rest => inventoryAfterLookups env (env.getProduct s item.productId).2 rest

/-- The state of the product service after it has answered one stock request
per item, in list order, from state `s`. -/
def inventoryAfterStock {σ : Type} (env : Env σ) (operation : StockOp) : σ → List OrderItem → σ
  | s, [] => s
  | s, item :: rest =>
    inventoryAfterStock env operation
      (env.patchStock s item.productId item.quantity operation).2 rest

/-- One lookup per item, in list order. -/
def lookupCalls (items : List RequestItem) : List Call :=
  items.map (fun item => Call.getProduct item.productId)

/-- One stock request per item, in list order, with the item's `productId`
and `quantity`. -/
def stockCalls (operation : StockOp) (items : List OrderItem) : List Call :=
  items.map (fun item => Call.patchStock item.productId item.quantity operation)

/-- The queue sends a publish of `event` amounts to: one with a channel,
none without. -/
def publishCalls (ctx : Ctx) (event : Event) : List Call :=
  match ctx.rabbitChannel with
  | some _ => [Call.sendToQueue event]
  | none => []

/-- Whether a call is a stock request. -/
def Call.isPatchStock : Call → Bool
  | .patchStock _ _ _ => true
  | _ => false

/-- Whether a call is a queue send. -/
def Call.isSendToQueue : Call → Bool
  | .sendToQueue _ => true
  | _ => false

/-- Whether a call writes to the order collection. -/
def Call.isWrite : Call → Bool
  | .save _ => true
  | .findByIdAndUpdate _ _ _ => true
  | _ => false

/-- Whether the store accepts the document `POST /orders` builds: the database
call resolves and no stored document has the new `_id` or `orderNumber`. -/
def saveSucceeds (ctx : Ctx) (orders : List Order) : Bool :=
  ctx.saveOk && orders.all (fun o => o._id ≠ ctx.objectId && o.orderNumber ≠ ctx.orderNumber)

/-- The document the status handler holds after its three assignments to the
stored document: new `status`, one more history entry, new `updatedAt`. -/
def statusApplied (ctx : Ctx) (stored : Order) (status : Status) (note : Option String) : Order :=
  { stored with
    status := status
    statusHistory := stored.statusHistory ++
      [{ status := status, timestamp := ctx.now, note := historyNote note status }]
    updatedAt := ctx.now }

/-- The document `findByIdAndUpdate` of the payment handler stores and
returns: new `paymentStatus`, new `updatedAt`. -/
def paymentApplied (ctx : Ctx) (stored : Order) (paymentStatus : PaymentStatus) : Order :=
  { stored with paymentStatus := paymentStatus, updatedAt := ctx.now }

/-- The document the payment handler saves when the payment is `paid` and the
order still `pending`: status `confirmed` and one more history entry. -/
def paymentConfirmed (ctx : Ctx) (stored : Order) : Order :=
  { paymentApplied ctx stored .paid with
    status := .confirmed
    statusHistory := stored.statusHistory ++
      [{ status := .confirmed, timestamp := ctx.now, note := "Payment received" }] }

/-- The running subtotal after the items, from `start`: each item adds its
unit price times its quantity, product and sum being those of JavaScript. -/
def itemsTotalFrom (start : JsNumber) (items : List OrderItem) : JsNumber :=
  items.foldl (fun acc item => jsAdd acc (jsMul (.finite item.price) (.finite item.quantity)))
    start

/-- The sum over the items, in item order from 0, of unit price times
quantity, product and sum being those of JavaScript. -/
def itemsTotal (items : List OrderItem) : JsNumber :=
  itemsTotalFrom 0 items

/-- The answers the product service gives to one lookup per item, in list
order, from state `s`. -/
def lookupReplies {σ : Type} (env : Env σ) : σ → List RequestItem → List InventoryReply
  | _, [] => []
  | s, item :: rest =>
    (env.getProduct s item.productId).1
      :: lookupReplies env (env.getProduct s item.productId).2 rest

/-- The order item `POST /orders` builds from a request item and the product
reported for it. -/
def orderItemOf (item : RequestItem) (product : Product) : OrderItem where
  productId := item.productId
  productName := product.name
  quantity := item.quantity
  price := product.price
  subtotal := jsMul (.finite product.price) (.finite item.quantity)

/-- A request to one of the three mutating routes. -/
inductive Request
  /-- `POST /orders` with this body. -/
  | create (body : OrderRequest)
  /-- `PATCH /orders/<id>/status` with these members of the body. -/
  | status (id : String) (status note : Option String)
  /-- `PATCH /orders/<id>/payment` with this member of the body. -/
  | payment (id : String) (paymentStatus : Option String)

/-- The handler a request is routed to. -/
def handle {σ : Type} (env : Env σ) (ctx : Ctx) (w : World σ) : Request → World σ × Response
  | .create body => createOrder env ctx w body
  | .status id status note => updateStatus env ctx w id status note
  | .payment id paymentStatus => updatePayment ctx w id paymentStatus

/-- The world after a sequence of requests handled one after the other, each
with its own `Ctx`. -/
def run {σ : Type} (env : Env σ) : World σ → List (Ctx × Request) → World σ
  | w, [] => w
  | w, (ctx, request) :: rest => run env (handle env ctx w request).1 rest

/-- The status of the last entry of the history, if there is one. -/
def lastHistoryStatus (order : Order) : Option Status :=
  order.statusHistory.getLast?.map (fun e => e.status)

/-- The fields of an order that are fixed at creation agree. -/
def sameFixedFields (a b : Order) : Prop :=
  b._id = a._id ∧ b.orderNumber = a.orderNumber ∧ b.items = a.items ∧
  b.subtotal = a.subtotal ∧ b.tax = a.tax ∧ b.shipping = a.shipping ∧
  b.total = a.total ∧ b.createdAt = a.createdAt

/-! ## Sample data -/

/-- A product service with one product for every identifier, "Widget" at unit
price 50 with 10 in stock, whose stock requests all succeed. -/
def widgetEnv : Env Unit where
  isEmail := fun _ => true
  getProduct := fun _ _ => (.found { name := "Widget", price := 50, stock := 10 }, ())
  patchStock := fun _ _ _ _ => (true, ())

/-- A product service with one product for every identifier, "Pencil" at unit
price 1 with 10 in stock, whose stock requests all succeed. -/
def pencilEnv : Env Unit where
  isEmail := fun _ => true
  getProduct := fun _ _ => (.found { name := "Pencil", price := 1, stock := 10 }, ())
  patchStock := fun _ _ _ _ => (true, ())

/-- A run in which every database call resolves and the channel is up. -/
def sampleCtx : Ctx where
  now := 1700000000000
  objectId := "65a000000000000000000001"
  orderNumber := "ORD-LOYW3V28-K3J9X"
  findOk := true
  saveOk := true
  rabbitChannel := some true

/-- An empty world. -/
def emptyWorld : World Unit where
  orders := []
  inventory := ()
  calls := []

/-- A shipping address. -/
def sampleAddress : ShippingAddress where
  street := "1 Main St"
  city := "Springfield"
  state := none
  zipCode := "12345"
  country := "US"

/-- A creation request for `quantity` units of product "P1". -/
def sampleRequest (quantity : ℚ) : OrderRequest where
  userId := "u1"
  userEmail := "u1@example.com"
  items := [{ productId := "P1", quantity := quantity }]
  shippingAddress := sampleAddress
  paymentMethod := "paypal"
  notes := none

/-- The order `POST /orders` builds for three units of "P1" in front of
`pencilEnv`. -/
def pencilOrder : Order :=
  newOrder sampleCtx (sampleRequest 3)
    [{ productId := "P1", productName := "Pencil", quantity := 3, price := 1, subtotal := 3 }] 3

/-- A product service that knows "P1" ("Widget" at 50, 10 in stock), answers
404 for "P2", cannot be reached for any other identifier, counts the requests
it has seen, and rejects every stock request. -/
def flakyEnv : Env Nat where
  isEmail := fun _ => true
  getProduct := fun n id =>
    if id = "P1" then (.found { name := "Widget", price := 50, stock := 10 }, n + 1)
    else if id = "P2" then (.notFound, n + 1)
    else (.unreachable, n + 1)
  patchStock := fun n _ _ _ => (false, n + 1)

/-- An empty world in front of `flakyEnv`. -/
def flakyWorld : World Nat where
  orders := []
  inventory := 0
  calls := []

/-- A creation request for two units of "P1", one of `second` and one more of
"P1". -/
def mixedRequest (second : String) : OrderRequest where
  userId := "u1"
  userEmail := "u1@example.com"
  items := [{ productId := "P1", quantity := 2 }, { productId := second, quantity := 1 },
            { productId := "P1", quantity := 1 }]
  shippingAddress := sampleAddress
  paymentMethod := "credit_card"
  notes := some "leave at the door"

/-- A stored order of two items in the given status, paid for or not. -/
def sampleOrder (status : Status) (paymentStatus : PaymentStatus) : Order where
  _id := "65a000000000000000000001"
  orderNumber := "ORD-LOYW3V28-K3J9X"
  userId := "u1"
  userEmail := "u1@example.com"
  items := [{ productId := "P1", productName := "Widget", quantity := 2, price := 50,
              subtotal := 100 },
            { productId := "P7", productName := "Gadget", quantity := 1, price := 20,
              subtotal := 20 }]
  status := status
  shippingAddress := sampleAddress
  paymentMethod := "paypal"
  paymentStatus := paymentStatus
  subtotal := 120
  tax := 12
  shipping := 0
  total := 132
  notes := none
  statusHistory := [{ status := .pending, timestamp := 1690000000000, note := "Order created" },
                    { status := status, timestamp := 1690000000500, note := "imported" }]
  createdAt := 1690000000000
  updatedAt := 1690000000500

/-- A world in front of `flakyEnv` that holds `sampleOrder` alone. -/
def storedWorld (status : Status) (paymentStatus : PaymentStatus) : World Nat where
  orders := [sampleOrder status paymentStatus]
  inventory := 0
  calls := []

/-- A cancellation followed by a payment, both on `sampleOrder`. -/
def sampleUpdates : List (Ctx × Request) :=
  [(sampleCtx, .status "65a000000000000000000001" (some "cancelled") none),
   (sampleCtx, .payment "65a000000000000000000001" (some "paid"))]

/-- Three status updates of one order: cancel it, put it back to `pending`,
cancel it again. -/
def cancelReopenCancel (id : String) (ctx1 ctx2 ctx3 : Ctx) : List (Ctx × Request) :=
  [(ctx1, .status id (some "cancelled") none),
   (ctx2, .status id (some "pending") none),
   (ctx3, .status id (some "cancelled") none)]

/-- A product service that stores one product, "Widget" at 50 with 10 in
stock, with an empty cache. -/
def widgetShop : Shop where
  products := fun oid =>
    if oid = "64b000000000000000000001" then some { name := "Widget", price := 50, stock := 10 }
    else none
  cache := fun _ => none
  redisOpen := true
  castObjectId := castHex24

/-- An empty order collection in front of `widgetShop`. -/
def shopWorld : World Shop where
  orders := []
  inventory := widgetShop
  calls := []

/-- A creation request with two items that both name the product of
`widgetShop`, in the given quantities. -/
def doubleRequest (first second : ℚ) : OrderRequest where
  userId := "u1"
  userEmail := "u1@example.com"
  items := [{ productId := "64b000000000000000000001", quantity := first },
            { productId := "64b000000000000000000001", quantity := second }]
  shippingAddress := sampleAddress
  paymentMethod := "debit_card"
  notes := none

/-- The order `POST /orders` builds for `doubleRequest 6 6` in front of
`widgetShop`. -/
def doubleOrder : Order :=
  newOrder sampleCtx (doubleRequest 6 6)
    [{ productId := "64b000000000000000000001", productName := "Widget", quantity := 6,
       price := 50, subtotal := 300 },
     { productId := "64b000000000000000000001", productName := "Widget", quantity := 6,
       price := 50, subtotal := 300 }]
    600

/-- The double the literal `3.4` denotes. -/
def stock34 : ℚ := 7656119366529843 / 2251799813685248

/-- The double the literal `1.2` denotes. -/
def quantity12 : ℚ := 5404319552844595 / 4503599627370496

/-- A product service that stores one product, "Ribbon" at 1 the metre with
3.4 in stock, with an empty cache. -/
def ribbonShop : Shop where
  products := fun oid =>
    if oid = "64b000000000000000000002" then
      some { name := "Ribbon", price := 1, stock := stock34 }
    else none
  cache := fun _ => none
  redisOpen := true
  castObjectId := castHex24

/-- An empty order collection in front of `ribbonShop`. -/
def ribbonWorld : World Shop where
  orders := []
  inventory := ribbonShop
  calls := []

/-- A creation request for 1.2 of the product of `ribbonShop`. -/
def ribbonRequest : OrderRequest where
  userId := "u1"
  userEmail := "u1@example.com"
  items := [{ productId := "64b000000000000000000002", quantity := quantity12 }]
  shippingAddress := sampleAddress
  paymentMethod := "debit_card"
  notes := none

/-- The order `POST /orders` builds for `ribbonRequest` in front of
`ribbonShop`. -/
def ribbonOrder : Order :=
  newOrder sampleCtx ribbonRequest
    [{ productId := "64b000000000000000000002", productName := "Ribbon",
       quantity := quantity12, price := 1, subtotal := .finite quantity12 }]
    (.finite quantity12)

/-! ## Lemmas on the helpers -/

theorem publishOrderEvent_orders {σ : Type} (ctx : Ctx) (w : World σ) (event : Event) :
    (publishOrderEvent ctx w event).orders = w.orders := by
  unfold publishOrderEvent; cases ctx.rabbitChannel <;> rfl

theorem publishOrderEvent_inventory {σ : Type} (ctx : Ctx) (w : World σ) (event : Event) :
    (publishOrderEvent ctx w event).inventory = w.inventory := by
  unfold publishOrderEvent; cases ctx.rabbitChannel <;> rfl

theorem publishOrderEvent_calls {σ : Type} (ctx : Ctx) (w : World σ) (event : Event) :
    (publishOrderEvent ctx w event).calls = w.calls ++ publishCalls ctx event := by
  unfold publishOrderEvent publishCalls; cases ctx.rabbitChannel <;> simp

theorem updateStockForItems_orders {σ : Type} (env : Env σ) (operation : StockOp) (items : List OrderItem) :
    ∀ w : World σ, (updateStockForItems env operation w items).orders = w.orders := by
  induction items with
  | nil => intro w; rfl
  | cons item rest ih => intro w; simp [updateStockForItems, ih, updateProductStock]

theorem updateStockForItems_inventory {σ : Type} (env : Env σ) (operation : StockOp)
    (items : List OrderItem) :
    ∀ w : World σ, (updateStockForItems env operation w items).inventory
      = inventoryAfterStock env operation w.inventory items := by
  induction items with
  | nil => intro w; rfl
  | cons item rest ih =>
    intro w; simp [updateStockForItems, ih, updateProductStock, inventoryAfterStock]

theorem updateStockForItems_calls {σ : Type} (env : Env σ) (operation : StockOp) (items : List OrderItem) :
    ∀ w : World σ, (updateStockForItems env operation w items).calls
      = w.calls ++ stockCalls operation items := by
  induction items with
  | nil => intro w; simp [updateStockForItems, stockCalls]
  | cons item rest ih =>
    intro w; simp [updateStockForItems, ih, updateProductStock, stockCalls]

/-- The first loop neither reads nor writes `patchStock`. -/
theorem collectItems_patchStock_irrelevant {σ : Type} (env : Env σ)
    (patch : σ → String → ℚ → StockOp → Bool × σ) (items : List RequestItem) :
    ∀ (w : World σ) (orderItems : List OrderItem) (subtotal : JsNumber),
      collectItems { env with patchStock := patch } w items orderItems subtotal
        = collectItems env w items orderItems subtotal := by
  induction items with
  | nil => intro w orderItems subtotal; rfl
  | cons item rest ih =>
    intro w orderItems subtotal
    simp only [collectItems, validateProductAndGetDetails]
    cases h : (env.getProduct w.inventory item.productId).1 <;> simp [ih]

/-- The first loop on a list whose items all pass: it reaches its end, having
issued one lookup per item, with one order item per request item and the
running subtotal advanced by the sum of price times quantity. -/
theorem collectItems_pass {σ : Type} (env : Env σ) (items : List RequestItem) :
    ∀ (w : World σ) (orderItems : List OrderItem) (subtotal : JsNumber),
      allItemsPass env w.inventory items = true →
      ∃ built : List OrderItem,
        (collectItems env w items orderItems subtotal).2
            = .ok (orderItems ++ built, itemsTotalFrom subtotal built) ∧
        (collectItems env w items orderItems subtotal).1.orders = w.orders ∧
        (collectItems env w items orderItems subtotal).1.inventory
            = inventoryAfterLookups env w.inventory items ∧
        (collectItems env w items orderItems subtotal).1.calls = w.calls ++ lookupCalls items ∧
        built.map (fun i => (i.productId, i.quantity))
            = items.map (fun i => (i.productId, i.quantity)) ∧
        ∀ i ∈ built, i.subtotal = jsMul (.finite i.price) (.finite i.quantity) := by
  induction items with
  | nil =>
    intro w orderItems subtotal _
    exact ⟨[], by simp [collectItems, itemsTotalFrom, inventoryAfterLookups, lookupCalls]⟩
  | cons item rest ih =>
    intro w orderItems subtotal hpass
    simp only [allItemsPass] at hpass
    rcases hget : env.getProduct w.inventory item.productId with ⟨reply, s1⟩
    rw [hget] at hpass
    cases reply with
    | notFound => simp at hpass
    | unreachable => simp at hpass
    | found product =>
      simp only [Bool.and_eq_true, decide_eq_true_eq] at hpass
      obtain ⟨hstock, hrest⟩ := hpass
      let w1 : World σ :=
        { w with inventory := s1, calls := w.calls ++ [Call.getProduct item.productId] }
      let oi : OrderItem :=
        { productId := item.productId, productName := product.name, quantity := item.quantity,
          price := product.price,
          subtotal := jsMul (.finite product.price) (.finite item.quantity) }
      obtain ⟨built, h1, h2, h3, h4, h5, h6⟩ :=
        ih w1 (orderItems ++ [oi])
          (jsAdd subtotal (jsMul (.finite product.price) (.finite item.quantity))) hrest
      have hstep : collectItems env w (item :: rest) orderItems subtotal
          = collectItems env w1 rest (orderItems ++ [oi])
              (jsAdd subtotal (jsMul (.finite product.price) (.finite item.quantity))) := by
        simp only [collectItems, validateProductAndGetDetails, hget]
        simp [not_lt.mpr hstock, w1, oi]
      rw [hstep]
      refine ⟨oi :: built, ?_, h2, ?_, ?_, ?_, ?_⟩
      · rw [h1]; simp [itemsTotalFrom, oi]
      · rw [h3]; simp [inventoryAfterLookups, hget, w1]
      · rw [h4]; simp [lookupCalls, w1]
      · simp [h5, oi]
      · intro i hi
        rcases List.mem_cons.mp hi with rfl | hi
        · rfl
        · exact h6 i hi

/-- The first loop on `pre ++ rest` when every item of `pre` passes: it
continues on `rest` from where it stands after `pre`. -/
theorem collectItems_append {σ : Type} (env : Env σ) (pre rest : List RequestItem) :
    ∀ (w : World σ) (orderItems : List OrderItem) (subtotal : JsNumber),
      allItemsPass env w.inventory pre = true →
      ∃ (built : List OrderItem) (total : JsNumber),
        collectItems env w (pre ++ rest) orderItems subtotal
          = collectItems env
              { w with inventory := inventoryAfterLookups env w.inventory pre,
                       calls := w.calls ++ lookupCalls pre }
              rest built total := by
  induction pre with
  | nil =>
    intro w orderItems subtotal _
    exact ⟨orderItems, subtotal, by simp [inventoryAfterLookups, lookupCalls]⟩
  | cons item pre ih =>
    intro w orderItems subtotal hpass
    simp only [allItemsPass] at hpass
    rcases hget : env.getProduct w.inventory item.productId with ⟨reply, s1⟩
    rw [hget] at hpass
    cases reply with
    | notFound => simp at hpass
    | unreachable => simp at hpass
    | found product =>
      simp only [Bool.and_eq_true, decide_eq_true_eq] at hpass
      obtain ⟨hstock, hrest⟩ := hpass
      let w1 : World σ :=
        { w with inventory := s1, calls := w.calls ++ [Call.getProduct item.productId] }
      obtain ⟨built, total, h⟩ := ih w1
        (orderItems ++ [{ productId := item.productId, productName := product.name,
                          quantity := item.quantity, price := product.price,
                          subtotal := jsMul (.finite product.price) (.finite item.quantity) }])
        (jsAdd subtotal (jsMul (.finite product.price) (.finite item.quantity))) hrest
      refine ⟨built, total, ?_⟩
      rw [List.cons_append]
      simp only [collectItems, validateProductAndGetDetails, hget]
      simp only [not_lt.mpr hstock, if_false]
      rw [h]
      simp [inventoryAfterLookups, hget, lookupCalls, w1]

theorem insertAccepted_newOrder (ctx : Ctx) (orders : List Order) (body : OrderRequest)
    (orderItems : List OrderItem) (subtotal : JsNumber) :
    insertAccepted ctx orders (newOrder ctx body orderItems subtotal) = saveSucceeds ctx orders :=
  rfl

/-- The handler of `POST /orders` once validation has passed and the first
loop has reached its end with `orderItems` and `subtotal`, the store accepting
the document. -/
theorem createOrder_of_collect {σ : Type} (env : Env σ) (ctx : Ctx) (w w1 : World σ) (body : OrderRequest)
    (orderItems : List OrderItem) (subtotal : JsNumber)
    (hvalid : validateOrder env body = none)
    (hcollect : collectItems env w body.items [] 0 = (w1, .ok (orderItems, subtotal)))
    (hsave : saveSucceeds ctx w1.orders = true) :
    createOrder env ctx w body
      = (publishOrderEvent ctx
          (updateStockForItems env .subtract
            { w1 with orders := w1.orders ++ [newOrder ctx body orderItems subtotal],
                      calls := w1.calls ++ [Call.save (newOrder ctx body orderItems subtotal)] }
            orderItems)
          (.order_created ctx.objectId ctx.orderNumber body.userId
            (newOrder ctx body orderItems subtotal).total ctx.now),
         .json 201 (newOrder ctx body orderItems subtotal)) := by
  unfold createOrder
  simp only [hvalid, hcollect, insertAccepted_newOrder, hsave]
  rfl

theorem lookupCalls_only (items : List RequestItem) :
    ∀ c ∈ lookupCalls items,
      c.isPatchStock = false ∧ c.isSendToQueue = false ∧ c.isWrite = false := by
  intro c hc
  simp only [lookupCalls, List.mem_map] at hc
  obtain ⟨item, -, rfl⟩ := hc
  exact ⟨rfl, rfl, rfl⟩

/-- The first loop at an item the product service does not return: the
early answer "Product not found", whatever made the lookup fail. -/
theorem collectItems_missing {σ : Type} (env : Env σ) (w : World σ) (item : RequestItem)
    (post : List RequestItem) (orderItems : List OrderItem) (subtotal : JsNumber)
    (hget : (env.getProduct w.inventory item.productId).1 = .notFound ∨
            (env.getProduct w.inventory item.productId).1 = .unreachable) :
    collectItems env w (item :: post) orderItems subtotal
      = ({ w with inventory := (env.getProduct w.inventory item.productId).2,
                  calls := w.calls ++ [Call.getProduct item.productId] },
         .error (.error 400 (.productNotFound item.productId))) := by
  simp only [collectItems, validateProductAndGetDetails]
  rcases hget with h | h <;> simp [h]

/-- The first loop at an item whose quantity exceeds the reported stock: the
early answer "Insufficient stock". -/
theorem collectItems_short {σ : Type} (env : Env σ) (w : World σ) (item : RequestItem)
    (post : List RequestItem) (orderItems : List OrderItem) (subtotal : JsNumber) (product : Product)
    (hget : (env.getProduct w.inventory item.productId).1 = .found product)
    (hstock : product.stock < item.quantity) :
    collectItems env w (item :: post) orderItems subtotal
      = ({ w with inventory := (env.getProduct w.inventory item.productId).2,
                  calls := w.calls ++ [Call.getProduct item.productId] },
         .error (.error 400 (.insufficientStock product.name product.stock))) := by
  simp only [collectItems, validateProductAndGetDetails]
  simp [hget, hstock]

/-- The handler of `POST /orders` once validation has passed, when the first
loop answers early at `item` after every item of `pre` has passed. -/
theorem createOrder_stops {σ : Type} (env : Env σ) (ctx : Ctx) (w : World σ) (body : OrderRequest)
    (pre post : List RequestItem) (item : RequestItem) (response : Response)
    (hvalid : validateOrder env body = none)
    (hitems : body.items = pre ++ item :: post)
    (hpre : allItemsPass env w.inventory pre = true)
    (hstop : ∀ (w1 : World σ) (orderItems : List OrderItem) (subtotal : JsNumber),
      w1.inventory = inventoryAfterLookups env w.inventory pre →
      collectItems env w1 (item :: post) orderItems subtotal
        = ({ w1 with inventory := (env.getProduct w1.inventory item.productId).2,
                     calls := w1.calls ++ [Call.getProduct item.productId] },
           .error response)) :
    (createOrder env ctx w body).2 = response ∧
    (createOrder env ctx w body).1.orders = w.orders ∧
    (createOrder env ctx w body).1.inventory
      = (env.getProduct (inventoryAfterLookups env w.inventory pre) item.productId).2 ∧
    (createOrder env ctx w body).1.calls = w.calls ++ lookupCalls (pre ++ [item]) := by
  obtain ⟨built, total, happ⟩ := collectItems_append env pre (item :: post) w [] 0 hpre
  have hs := hstop { w with inventory := inventoryAfterLookups env w.inventory pre,
                            calls := w.calls ++ lookupCalls pre } built total rfl
  unfold createOrder
  simp only [hvalid, hitems, happ, hs]
  simp [lookupCalls]

theorem findById_id (orders : List Order) (id : String) (stored : Order)
    (h : findById orders id = some stored) : stored._id = id := by
  have := List.find?_some h
  simpa using this

theorem findById_replaceOrder_same (orders : List Order) (id : String) (stored order : Order)
    (h : findById orders id = some stored) (hid : order._id = id) :
    findById (replaceOrder orders order) id = some order := by
  induction orders with
  | nil => simp [findById] at h
  | cons o rest ih =>
    unfold replaceOrder
    by_cases ho : o._id = order._id
    · simp [ho, findById, hid]
    · have ho2 : ¬ o._id = id := hid ▸ ho
      simp only [ho, if_false]
      simp only [findById, List.find?_cons, ho2, decide_False] at h ⊢
      exact ih h

theorem findById_replaceOrder_other (orders : List Order) (id : String) (order : Order)
    (hid : order._id ≠ id) :
    findById (replaceOrder orders order) id = findById orders id := by
  induction orders with
  | nil => rfl
  | cons o rest ih =>
    unfold replaceOrder
    by_cases ho : o._id = order._id
    · have ho2 : ¬ o._id = id := ho ▸ hid
      simp [ho, findById, hid, ho2]
    · simp only [ho, if_false]
      by_cases ho3 : o._id = id
      · simp [findById, ho3]
      · simp only [findById, List.find?_cons, ho3, decide_False]
        exact ih

theorem statusOfString_toString (status : Status) :
    Status.ofString status.toString = some status := by
  cases status <;> decide

theorem paymentStatusOfString_toString (paymentStatus : PaymentStatus) :
    PaymentStatus.ofString paymentStatus.toString = some paymentStatus := by
  cases paymentStatus <;> decide

theorem truthy_status (status : Status) : truthy (some status.toString) = true := by
  cases status <;> decide

theorem truthy_paymentStatus (paymentStatus : PaymentStatus) :
    truthy (some paymentStatus.toString) = true := by
  cases paymentStatus <;> decide

/-- The status handler on a stored order when the guard refuses. -/
theorem updateStatus_refused {σ : Type} (env : Env σ) (ctx : Ctx) (w : World σ) (id : String)
    (status : Status) (note : Option String) (stored : Order)
    (hfind : ctx.findOk = true) (hstored : findById w.orders id = some stored)
    (hguard : cancelRefused status stored.status = true) :
    updateStatus env ctx w id (some status.toString) note
      = ({ w with calls := w.calls ++ [Call.findById id] }, .error 400 .cannotCancel) := by
  unfold updateStatus
  simp [truthy_status, statusOfString_toString, hfind, hstored, hguard]

/-- The status handler on a stored order when the guard lets the request
through and the save resolves. -/
theorem updateStatus_accepted {σ : Type} (env : Env σ) (ctx : Ctx) (w : World σ) (id : String)
    (status : Status) (note : Option String) (stored : Order)
    (hfind : ctx.findOk = true) (hsave : ctx.saveOk = true)
    (hstored : findById w.orders id = some stored)
    (hguard : cancelRefused status stored.status = false) :
    (updateStatus env ctx w id (some status.toString) note).2
        = .json 200 (statusApplied ctx stored status note) ∧
    (updateStatus env ctx w id (some status.toString) note).1.orders
        = replaceOrder w.orders (statusApplied ctx stored status note) ∧
    (updateStatus env ctx w id (some status.toString) note).1.inventory
        = (if status = .cancelled then inventoryAfterStock env .add w.inventory stored.items
           else w.inventory) ∧
    (updateStatus env ctx w id (some status.toString) note).1.calls
        = w.calls ++ ([Call.findById id]
            ++ (if status = .cancelled then stockCalls .add stored.items else [])
            ++ [Call.save (statusApplied ctx stored status note)]
            ++ publishCalls ctx (.order_status_updated stored._id stored.orderNumber
                status status ctx.now)) := by
  unfold updateStatus
  simp only [truthy_status, statusOfString_toString, hfind, hsave, hstored, hguard,
    Option.getD_some, Bool.not_true, Bool.false_eq_true, if_false]
  refine ⟨rfl, ?_, ?_, ?_⟩
  · simp only [publishOrderEvent_orders]
    split <;> simp [updateStockForItems_orders, statusApplied]
  · simp only [publishOrderEvent_inventory]
    split <;> simp [updateStockForItems_inventory]
  · simp only [publishOrderEvent_calls]
    split <;> simp [updateStockForItems_calls, statusApplied]

/-- The payment handler on a stored order when the payment is not `paid` or
the order is not `pending`. -/
theorem updatePayment_plain {σ : Type} (ctx : Ctx) (w : World σ) (id : String)
    (paymentStatus : PaymentStatus) (stored : Order)
    (hfind : ctx.findOk = true) (hstored : findById w.orders id = some stored)
    (hplain : paymentStatus ≠ .paid ∨ stored.status ≠ .pending) :
    updatePayment ctx w id (some paymentStatus.toString)
      = (publishOrderEvent ctx
          { w with orders := replaceOrder w.orders (paymentApplied ctx stored paymentStatus),
                   calls := w.calls ++ [Call.findByIdAndUpdate id paymentStatus ctx.now] }
          (.payment_status_updated stored._id stored.orderNumber paymentStatus ctx.now),
         .json 200 (paymentApplied ctx stored paymentStatus)) := by
  unfold updatePayment
  have hcond : ¬ (paymentStatus = .paid ∧ stored.status = .pending) := by
    rintro ⟨h1, h2⟩
    rcases hplain with h | h
    · exact h h1
    · exact h h2
  simp only [truthy_paymentStatus, paymentStatusOfString_toString, hfind, hstored,
    Option.getD_some, Bool.not_true, Bool.false_eq_true, if_false, hcond]
  rfl

/-- The payment handler on a stored `pending` order when the payment is `paid`:
the first write, then the save, which resolves or not. -/
theorem updatePayment_paid_pending {σ : Type} (ctx : Ctx) (w : World σ) (id : String) (stored : Order)
    (hfind : ctx.findOk = true) (hstored : findById w.orders id = some stored)
    (hpending : stored.status = .pending) :
    updatePayment ctx w id (some "paid")
      = if ctx.saveOk = true then
          (publishOrderEvent ctx
            { w with orders := replaceOrder (replaceOrder w.orders
                                (paymentApplied ctx stored .paid)) (paymentConfirmed ctx stored),
                     calls := w.calls ++ [Call.findByIdAndUpdate id .paid ctx.now]
                                ++ [Call.save (paymentConfirmed ctx stored)] }
            (.payment_status_updated stored._id stored.orderNumber .paid ctx.now),
           .json 200 (paymentConfirmed ctx stored))
        else
          ({ w with orders := replaceOrder w.orders (paymentApplied ctx stored .paid),
                    calls := w.calls ++ [Call.findByIdAndUpdate id .paid ctx.now]
                                ++ [Call.save (paymentConfirmed ctx stored)] },
           .error 500 .internalServerError) := by
  unfold updatePayment
  have h1 : truthy (some "paid") = true := by decide
  have h2 : PaymentStatus.ofString "paid" = some .paid := by decide
  simp only [h1, h2, hfind, hstored, Option.getD_some, Bool.not_true,
    Bool.false_eq_true, if_false]
  rw [if_pos (show True ∧ stored.status = .pending from ⟨trivial, hpending⟩)]
  cases ctx.saveOk
  · rfl
  · rfl

/-- Every run of the status handler either leaves the collection as it was
and answers an error, or writes back `statusApplied` of the stored order and
answers 200 with it. -/
theorem updateStatus_cases {σ : Type} (env : Env σ) (ctx : Ctx) (w : World σ) (id : String)
    (status note : Option String) :
    ((updateStatus env ctx w id status note).1.orders = w.orders ∧
      ∃ code error, (updateStatus env ctx w id status note).2 = .error code error) ∨
    (∃ (stored : Order) (st : Status), findById w.orders id = some stored ∧
      (updateStatus env ctx w id status note).1.orders
        = replaceOrder w.orders (statusApplied ctx stored st note) ∧
      (updateStatus env ctx w id status note).2 = .json 200 (statusApplied ctx stored st note)) := by
  unfold updateStatus
  by_cases ht : truthy status = true
  swap
  · left; simp [ht]
  simp only [ht, Bool.not_true, Bool.false_eq_true, if_false]
  cases hs : Status.ofString (status.getD "") with
  | none => left; simp
  | some st =>
    simp only
    cases hf : ctx.findOk with
    | false => left; simp
    | true =>
      simp only [Bool.not_true, Bool.false_eq_true, if_false]
      cases hstored : findById w.orders id with
      | none => left; simp
      | some stored =>
        simp only
        cases hg : cancelRefused st stored.status with
        | true => left; simp
        | false =>
          simp only [Bool.false_eq_true, if_false]
          cases hsv : ctx.saveOk with
          | false =>
            left
            simp only [Bool.not_false, if_true]
            refine ⟨?_, _, _, rfl⟩
            split <;> simp [updateStockForItems_orders]
          | true =>
            right
            simp only [Bool.not_true, Bool.false_eq_true, if_false]
            refine ⟨stored, st, rfl, ?_, rfl⟩
            simp only [publishOrderEvent_orders]
            split <;> simp [updateStockForItems_orders, statusApplied]

/-- Every run of the payment handler either leaves the collection as it was
and answers an error, or stores `paymentApplied` of the stored order (and
answers 200 with it, or 500 when the save that follows is rejected), or
stores `paymentConfirmed` of a stored `pending` order and answers 200 with
it. -/
theorem updatePayment_cases {σ : Type} (ctx : Ctx) (w : World σ) (id : String)
    (paymentStatus : Option String) :
    ((updatePayment ctx w id paymentStatus).1.orders = w.orders ∧
      ∃ code error, (updatePayment ctx w id paymentStatus).2 = .error code error) ∨
    (∃ (stored : Order) (ps : PaymentStatus), findById w.orders id = some stored ∧
      (updatePayment ctx w id paymentStatus).1.orders
        = replaceOrder w.orders (paymentApplied ctx stored ps)) ∨
    (∃ stored : Order, findById w.orders id = some stored ∧ stored.status = .pending ∧
      (updatePayment ctx w id paymentStatus).1.orders
        = replaceOrder (replaceOrder w.orders (paymentApplied ctx stored .paid))
            (paymentConfirmed ctx stored) ∧
      (updatePayment ctx w id paymentStatus).2 = .json 200 (paymentConfirmed ctx stored)) := by
  unfold updatePayment
  by_cases ht : truthy paymentStatus = true
  swap
  · left; simp [ht]
  simp only [ht, Bool.not_true, Bool.false_eq_true, if_false]
  cases hs : PaymentStatus.ofString (paymentStatus.getD "") with
  | none => left; simp
  | some ps =>
    simp only
    cases hf : ctx.findOk with
    | false => left; simp
    | true =>
      simp only [Bool.not_true, Bool.false_eq_true, if_false]
      cases hstored : findById w.orders id with
      | none => left; simp
      | some stored =>
        simp only
        by_cases hc : ps = .paid ∧ stored.status = .pending
        · rw [if_pos hc]
          obtain ⟨hps, hpending⟩ := hc
          subst hps
          cases hsv : ctx.saveOk with
          | false =>
            right; left
            exact ⟨stored, .paid, rfl, rfl⟩
          | true =>
            right; right
            refine ⟨stored, rfl, hpending, ?_, rfl⟩
            simp only [Bool.not_true, Bool.false_eq_true, if_false, publishOrderEvent_orders]
            rfl
        · rw [if_neg hc]
          right; left
          refine ⟨stored, ps, rfl, ?_⟩
          simp only [publishOrderEvent_orders]
          rfl

/-! ## Order creation -/

/-- C1, as stated, fails: the amounts are doubles, not exact rationals.  For
three units of a product at unit price 1 the order answered has subtotal 3
and tax `3 * 0.1` as JavaScript computes it, 0.30000000000000004 (the double
5404319552844596 / 2 ^ 54), which is not 3 / 10. -/
theorem createOrder_tax_not_exact :
    (createOrder pencilEnv sampleCtx emptyWorld (sampleRequest 3)).2
      = .json 201 pencilOrder ∧
    pencilOrder.subtotal = 3 ∧
    pencilOrder.tax = .finite (5404319552844596 / 18014398509481984) ∧
    pencilOrder.tax ≠ .finite (3 * (1 / 10)) ∧
    pencilOrder.total ≠ .finite (3 + 3 * (1 / 10) + 10) := by
  decide!

/-- C1, amended: for every structurally valid creation request whose items are
all found with quantity at most the reported stock, the order that
`POST /orders` saves and returns has one item per request item, `subtotal`
equal to the sum over its items, in item order from 0, of unit price times
quantity, `tax = subtotal * 0.1`, `shipping = 0` if `subtotal > 100` and `10`
otherwise, and `total = (subtotal + tax) + shipping`, every product and sum
being the IEEE double one (rounded to nearest, ties to even) and `0.1` the
double of that literal; with subtotal 150 that is shipping 0, tax 15 and
total 165. -/
theorem createOrder_totals {σ : Type} (env : Env σ) (ctx : Ctx) (w : World σ)
    (body : OrderRequest)
    (hvalid : validateOrder env body = none)
    (hpass : allItemsPass env w.inventory body.items = true)
    (hsave : saveSucceeds ctx w.orders = true) :
    ∃ order : Order,
      (createOrder env ctx w body).2 = .json 201 order ∧
      (createOrder env ctx w body).1.orders = w.orders ++ [order] ∧
      order.items.map (fun i => (i.productId, i.quantity))
        = body.items.map (fun i => (i.productId, i.quantity)) ∧
      order.subtotal
        = order.items.foldl
            (fun acc i => jsAdd acc (jsMul (.finite i.price) (.finite i.quantity))) 0 ∧
      order.tax = jsMul order.subtotal (.finite tenth) ∧
      order.shipping = (if jsLt 100 order.subtotal then 0 else 10) ∧
      order.total = jsAdd (jsAdd order.subtotal order.tax) order.shipping ∧
      (order.subtotal = 150 → order.shipping = 0 ∧ order.tax = 15 ∧ order.total = 165) := by
  obtain ⟨built, h1, h2, -, -, h5, -⟩ := collectItems_pass env body.items w [] 0 hpass
  rcases hc : collectItems env w body.items [] 0 with ⟨w1, result⟩
  rw [hc] at h1 h2
  simp only [List.nil_append] at h1
  simp only at h1 h2
  subst h1
  rw [← h2] at hsave
  rw [createOrder_of_collect env ctx w w1 body built (itemsTotal built) hvalid hc hsave]
  refine ⟨newOrder ctx body built (itemsTotal built), rfl, ?_, h5, rfl, rfl, rfl, rfl, ?_⟩
  · simp [publishOrderEvent_orders, updateStockForItems_orders, h2]
  · intro h
    simp only [newOrder] at h ⊢
    rw [h]
    decide!

/-- Witness of C1, amended: three units of "Widget" at 50, subtotal 150. -/
theorem createOrder_totals_witness :
    validateOrder widgetEnv (sampleRequest 3) = none ∧
    allItemsPass widgetEnv emptyWorld.inventory (sampleRequest 3).items = true ∧
    saveSucceeds sampleCtx emptyWorld.orders = true ∧
    ∃ order : Order,
      (createOrder widgetEnv sampleCtx emptyWorld (sampleRequest 3)).2 = .json 201 order ∧
      (createOrder widgetEnv sampleCtx emptyWorld (sampleRequest 3)).1.orders
        = emptyWorld.orders ++ [order] ∧
      order.items.map (fun i => (i.productId, i.quantity))
        = (sampleRequest 3).items.map (fun i => (i.productId, i.quantity)) ∧
      order.subtotal
        = order.items.foldl
            (fun acc i => jsAdd acc (jsMul (.finite i.price) (.finite i.quantity))) 0 ∧
      order.tax = jsMul order.subtotal (.finite tenth) ∧
      order.shipping = (if jsLt 100 order.subtotal then 0 else 10) ∧
      order.total = jsAdd (jsAdd order.subtotal order.tax) order.shipping ∧
      (order.subtotal = 150 → order.shipping = 0 ∧ order.tax = 15 ∧ order.total = 165) :=
  ⟨by decide, by decide, by decide,
   createOrder_totals widgetEnv sampleCtx emptyWorld (sampleRequest 3)
     (by decide) (by decide) (by decide)⟩

/-- C8: for every structurally valid creation request in which every item of
`pre` is found with enough stock and the next item's quantity exceeds the
stock the product service reports, `POST /orders` answers 400 "Insufficient
stock" with that product's name and reported stock, leaves the order
collection as it was, and issues only the lookups up to that item: no save,
no stock request, no queue send. -/
theorem createOrder_insufficient_stock {σ : Type} (env : Env σ) (ctx : Ctx) (w : World σ)
    (body : OrderRequest) (pre post : List RequestItem) (item : RequestItem)
    (product : Product)
    (hvalid : validateOrder env body = none)
    (hitems : body.items = pre ++ item :: post)
    (hpre : allItemsPass env w.inventory pre = true)
    (hget : (env.getProduct (inventoryAfterLookups env w.inventory pre) item.productId).1
              = .found product)
    (hstock : product.stock < item.quantity) :
    (createOrder env ctx w body).2
      = .error 400 (.insufficientStock product.name product.stock) ∧
    (createOrder env ctx w body).1.orders = w.orders ∧
    ∃ issued : List Call,
      (createOrder env ctx w body).1.calls = w.calls ++ issued ∧
      issued = lookupCalls (pre ++ [item]) ∧
      ∀ c ∈ issued, c.isPatchStock = false ∧ c.isSendToQueue = false ∧ c.isWrite = false := by
  have h := createOrder_stops env ctx w body pre post item
    (.error 400 (.insufficientStock product.name product.stock)) hvalid hitems hpre
    (fun w1 orderItems subtotal hw1 =>
      collectItems_short env w1 item post orderItems subtotal product (hw1 ▸ hget) hstock)
  exact ⟨h.1, h.2.1, _, h.2.2.2, rfl, lookupCalls_only _⟩

/-- Witness of C8: twelve units of "Widget" against a stock of ten. -/
theorem createOrder_insufficient_stock_witness :
    validateOrder widgetEnv (sampleRequest 12) = none ∧
    (sampleRequest 12).items = [] ++ { productId := "P1", quantity := 12 } :: [] ∧
    allItemsPass widgetEnv emptyWorld.inventory [] = true ∧
    (widgetEnv.getProduct (inventoryAfterLookups widgetEnv emptyWorld.inventory []) "P1").1
      = .found { name := "Widget", price := 50, stock := 10 } ∧
    ((10 : ℚ) < 12) ∧
    (createOrder widgetEnv sampleCtx emptyWorld (sampleRequest 12)).2
      = .error 400 (.insufficientStock "Widget" 10) ∧
    (createOrder widgetEnv sampleCtx emptyWorld (sampleRequest 12)).1.orders = [] ∧
    ∃ issued : List Call,
      (createOrder widgetEnv sampleCtx emptyWorld (sampleRequest 12)).1.calls
        = emptyWorld.calls ++ issued ∧
      issued = lookupCalls ([] ++ [{ productId := "P1", quantity := 12 }]) ∧
      ∀ c ∈ issued, c.isPatchStock = false ∧ c.isSendToQueue = false ∧ c.isWrite = false :=
  ⟨by decide, rfl, rfl, rfl, by decide,
   createOrder_insufficient_stock widgetEnv sampleCtx emptyWorld (sampleRequest 12) [] []
     { productId := "P1", quantity := 12 } { name := "Widget", price := 50, stock := 10 }
     (by decide) rfl rfl rfl (by decide)⟩

/-- C9: for every structurally valid creation request in which every item of
`pre` is found with enough stock and the lookup of the next item fails, be it
a 404 answer or an unreachable product service, `POST /orders` answers the
same 400 "Product not found" naming that item's `productId`, leaves the order
collection as it was, and issues only the lookups up to that item: none for
later items, no save, no stock request, no queue send. -/
theorem createOrder_item_unavailable {σ : Type} (env : Env σ) (ctx : Ctx) (w : World σ)
    (body : OrderRequest) (pre post : List RequestItem) (item : RequestItem)
    (hvalid : validateOrder env body = none)
    (hitems : body.items = pre ++ item :: post)
    (hpre : allItemsPass env w.inventory pre = true)
    (hget : (env.getProduct (inventoryAfterLookups env w.inventory pre) item.productId).1
              = .notFound ∨
            (env.getProduct (inventoryAfterLookups env w.inventory pre) item.productId).1
              = .unreachable) :
    (createOrder env ctx w body).2 = .error 400 (.productNotFound item.productId) ∧
    (createOrder env ctx w body).1.orders = w.orders ∧
    ∃ issued : List Call,
      (createOrder env ctx w body).1.calls = w.calls ++ issued ∧
      issued = lookupCalls (pre ++ [item]) ∧
      ∀ c ∈ issued, c.isPatchStock = false ∧ c.isSendToQueue = false ∧ c.isWrite = false := by
  have h := createOrder_stops env ctx w body pre post item
    (.error 400 (.productNotFound item.productId)) hvalid hitems hpre
    (fun w1 orderItems subtotal hw1 =>
      collectItems_missing env w1 item post orderItems subtotal (hw1 ▸ hget))
  exact ⟨h.1, h.2.1, _, h.2.2.2, rfl, lookupCalls_only _⟩

/-- Witness of C9: the second item "P2" gets a 404 answer after "P1" passed. -/
theorem createOrder_item_unavailable_witness :
    validateOrder flakyEnv (mixedRequest "P2") = none ∧
    (mixedRequest "P2").items
      = [{ productId := "P1", quantity := 2 }] ++ { productId := "P2", quantity := 1 }
          :: [{ productId := "P1", quantity := 1 }] ∧
    allItemsPass flakyEnv flakyWorld.inventory [{ productId := "P1", quantity := 2 }] = true ∧
    (createOrder flakyEnv sampleCtx flakyWorld (mixedRequest "P2")).2
      = .error 400 (.productNotFound "P2") ∧
    (createOrder flakyEnv sampleCtx flakyWorld (mixedRequest "P2")).1.orders
      = flakyWorld.orders ∧
    ∃ issued : List Call,
      (createOrder flakyEnv sampleCtx flakyWorld (mixedRequest "P2")).1.calls
        = flakyWorld.calls ++ issued ∧
      issued = lookupCalls ([{ productId := "P1", quantity := 2 }]
                  ++ [{ productId := "P2", quantity := 1 }]) ∧
      ∀ c ∈ issued, c.isPatchStock = false ∧ c.isSendToQueue = false ∧ c.isWrite = false :=
  ⟨by decide, rfl, by decide,
   createOrder_item_unavailable flakyEnv sampleCtx flakyWorld (mixedRequest "P2")
     [{ productId := "P1", quantity := 2 }] [{ productId := "P1", quantity := 1 }]
     { productId := "P2", quantity := 1 } (by decide) rfl (by decide) (Or.inl (by decide))⟩

/-- C10: the steps of `POST /orders` after the save are best-effort.  For every
structurally valid request whose items all pass and whose save succeeds there
is one order such that, whatever the stock requests answer and whatever the
state of the channel, the handler answers 201 with that order, the collection
is the old one followed by that order, and the calls issued are the lookups,
the save, then one `subtract` stock request per item in item order, then the
queue send when there is a channel. -/
theorem createOrder_best_effort {σ : Type} (env : Env σ) (ctx : Ctx) (w : World σ)
    (body : OrderRequest)
    (hvalid : validateOrder env body = none)
    (hpass : allItemsPass env w.inventory body.items = true)
    (hsave : saveSucceeds ctx w.orders = true) :
    ∃ order : Order,
      order.items.map (fun i => (i.productId, i.quantity))
        = body.items.map (fun i => (i.productId, i.quantity)) ∧
      ∀ (patch : σ → String → ℚ → StockOp → Bool × σ) (channel : Option Bool),
        (createOrder { env with patchStock := patch } { ctx with rabbitChannel := channel }
            w body).2 = .json 201 order ∧
        (createOrder { env with patchStock := patch } { ctx with rabbitChannel := channel }
            w body).1.orders = w.orders ++ [order] ∧
        (createOrder { env with patchStock := patch } { ctx with rabbitChannel := channel }
            w body).1.calls
          = w.calls ++ lookupCalls body.items ++ [Call.save order]
              ++ stockCalls .subtract order.items
              ++ publishCalls { ctx with rabbitChannel := channel }
                  (.order_created order._id order.orderNumber order.userId order.total
                    ctx.now) := by
  obtain ⟨built, h1, h2, -, h4, h5, -⟩ := collectItems_pass env body.items w [] 0 hpass
  rcases hc : collectItems env w body.items [] 0 with ⟨w1, result⟩
  rw [hc] at h1 h2 h4
  simp only [List.nil_append, zero_add] at h1
  simp only at h1 h2 h4
  subst h1
  refine ⟨newOrder ctx body built (itemsTotal built), h5, ?_⟩
  intro patch channel
  have hc2 : collectItems { env with patchStock := patch } w body.items [] 0
      = (w1, .ok (built, itemsTotal built)) := by
    rw [collectItems_patchStock_irrelevant, hc]
    rfl
  have hsave2 : saveSucceeds { ctx with rabbitChannel := channel } w1.orders = true := by
    rw [h2]; exact hsave
  rw [createOrder_of_collect { env with patchStock := patch }
    { ctx with rabbitChannel := channel } w w1 body built (itemsTotal built) hvalid hc2 hsave2]
  refine ⟨rfl, ?_, ?_⟩
  · simp [publishOrderEvent_orders, updateStockForItems_orders, h2]
    rfl
  · simp only [publishOrderEvent_calls, updateStockForItems_calls, h4]
    rfl

/-- Witness of C10: every stock request of `flakyEnv` is rejected. -/
theorem createOrder_best_effort_witness :
    validateOrder flakyEnv (mixedRequest "P1") = none ∧
    allItemsPass flakyEnv flakyWorld.inventory (mixedRequest "P1").items = true ∧
    saveSucceeds sampleCtx flakyWorld.orders = true ∧
    ∃ order : Order,
      order.items.map (fun i => (i.productId, i.quantity))
        = (mixedRequest "P1").items.map (fun i => (i.productId, i.quantity)) ∧
      ∀ (patch : Nat → String → ℚ → StockOp → Bool × Nat) (channel : Option Bool),
        (createOrder { flakyEnv with patchStock := patch }
            { sampleCtx with rabbitChannel := channel } flakyWorld (mixedRequest "P1")).2
          = .json 201 order ∧
        (createOrder { flakyEnv with patchStock := patch }
            { sampleCtx with rabbitChannel := channel } flakyWorld (mixedRequest "P1")).1.orders
          = flakyWorld.orders ++ [order] ∧
        (createOrder { flakyEnv with patchStock := patch }
            { sampleCtx with rabbitChannel := channel } flakyWorld (mixedRequest "P1")).1.calls
          = flakyWorld.calls ++ lookupCalls (mixedRequest "P1").items ++ [Call.save order]
              ++ stockCalls .subtract order.items
              ++ publishCalls { sampleCtx with rabbitChannel := channel }
                  (.order_created order._id order.orderNumber order.userId order.total
                    sampleCtx.now) :=
  ⟨by decide, by decide, by decide,
   createOrder_best_effort flakyEnv sampleCtx flakyWorld (mixedRequest "P1")
     (by decide) (by decide) (by decide)⟩

/-! ## Status updates -/

/-- C2: on a stored order, `PATCH /orders/:id/status` with `cancelled` answers
200 only if the current status is `pending` or `confirmed`, and does so from
these two whenever the save resolves; from every other status it answers 400
"Cannot cancel order in current status", leaves the order collection and the
product service as they were, and issues nothing but the load: no stock
request, no save, no queue send. -/
theorem updateStatus_cancel_guard {σ : Type} (env : Env σ) (ctx : Ctx) (w : World σ)
    (id : String) (note : Option String) (stored : Order)
    (hfind : ctx.findOk = true) (hstored : findById w.orders id = some stored) :
    ((∃ order, (updateStatus env ctx w id (some "cancelled") note).2 = .json 200 order) →
      stored.status = .pending ∨ stored.status = .confirmed) ∧
    (stored.status = .pending ∨ stored.status = .confirmed → ctx.saveOk = true →
      (updateStatus env ctx w id (some "cancelled") note).2
        = .json 200 (statusApplied ctx stored .cancelled note)) ∧
    (¬ (stored.status = .pending ∨ stored.status = .confirmed) →
      (updateStatus env ctx w id (some "cancelled") note).2 = .error 400 .cannotCancel ∧
      (updateStatus env ctx w id (some "cancelled") note).1.orders = w.orders ∧
      (updateStatus env ctx w id (some "cancelled") note).1.inventory = w.inventory ∧
      ∃ issued : List Call,
        (updateStatus env ctx w id (some "cancelled") note).1.calls = w.calls ++ issued ∧
        issued = [Call.findById id] ∧
        ∀ c ∈ issued, c.isPatchStock = false ∧ c.isSendToQueue = false ∧ c.isWrite = false) := by
  have hrefused : ¬ (stored.status = .pending ∨ stored.status = .confirmed) →
      updateStatus env ctx w id (some "cancelled") note
        = ({ w with calls := w.calls ++ [Call.findById id] }, .error 400 .cannotCancel) := by
    intro h
    exact updateStatus_refused env ctx w id .cancelled note stored hfind hstored
      (by simpa [cancelRefused, not_or] using h)
  refine ⟨?_, ?_, ?_⟩
  · rintro ⟨order, horder⟩
    by_contra h
    rw [hrefused h] at horder
    cases horder
  · intro h hsave
    exact (updateStatus_accepted env ctx w id .cancelled note stored hfind hsave hstored
      (by rcases h with h | h <;> simp [cancelRefused, h])).1
  · intro h
    rw [hrefused h]
    refine ⟨rfl, rfl, rfl, _, rfl, rfl, ?_⟩
    intro c hc
    rw [List.mem_singleton.mp hc]
    exact ⟨rfl, rfl, rfl⟩

/-- Witness of C2: a shipped order is not cancelled. -/
theorem updateStatus_cancel_guard_witness :
    sampleCtx.findOk = true ∧
    findById (storedWorld .shipped .paid).orders "65a000000000000000000001"
      = some (sampleOrder .shipped .paid) ∧
    (updateStatus flakyEnv sampleCtx (storedWorld .shipped .paid) "65a000000000000000000001"
        (some "cancelled") none).2 = .error 400 .cannotCancel ∧
    (updateStatus flakyEnv sampleCtx (storedWorld .shipped .paid) "65a000000000000000000001"
        (some "cancelled") none).1.orders = [sampleOrder .shipped .paid] :=
  ⟨rfl, by decide,
   ((updateStatus_cancel_guard flakyEnv sampleCtx (storedWorld .shipped .paid)
      "65a000000000000000000001" none (sampleOrder .shipped .paid) rfl (by decide)).2.2
      (by decide)).1,
   ((updateStatus_cancel_guard flakyEnv sampleCtx (storedWorld .shipped .paid)
      "65a000000000000000000001" none (sampleOrder .shipped .paid) rfl (by decide)).2.2
      (by decide)).2.1⟩

/-- C3: a successful `PATCH /orders/:id/status` issues, between the load and
the save, exactly one `add` stock request per item of the order, in item
order, with that item's `productId` and `quantity`, when the new status is
`cancelled` (the order being `pending` or `confirmed`), and no stock request
at all for any other new status.  The answers of the product service play no
part: a rejected request stops neither the remaining ones nor the update. -/
theorem updateStatus_stock_calls {σ : Type} (env : Env σ) (ctx : Ctx) (w : World σ)
    (id : String) (status : Status) (note : Option String) (stored : Order)
    (hfind : ctx.findOk = true) (hsave : ctx.saveOk = true)
    (hstored : findById w.orders id = some stored)
    (hlegal : status = .cancelled → stored.status = .pending ∨ stored.status = .confirmed) :
    ∃ (order : Order) (issued : List Call),
      (updateStatus env ctx w id (some status.toString) note).2 = .json 200 order ∧
      order.status = status ∧
      (updateStatus env ctx w id (some status.toString) note).1.calls = w.calls ++ issued ∧
      issued = [Call.findById id]
          ++ (if status = .cancelled then stockCalls .add stored.items else [])
          ++ [Call.save order]
          ++ publishCalls ctx
              (.order_status_updated stored._id stored.orderNumber status status ctx.now) ∧
      issued.filter Call.isPatchStock
        = (if status = .cancelled then
            stored.items.map (fun i => Call.patchStock i.productId i.quantity .add)
           else []) ∧
      (status ≠ .cancelled →
        (updateStatus env ctx w id (some status.toString) note).1.inventory = w.inventory) := by
  have hguard : cancelRefused status stored.status = false := by
    by_cases hs : status = .cancelled
    · rcases hlegal hs with h | h <;> simp [cancelRefused, h]
    · simp [cancelRefused, hs]
  obtain ⟨h1, -, h3, h4⟩ :=
    updateStatus_accepted env ctx w id status note stored hfind hsave hstored hguard
  refine ⟨statusApplied ctx stored status note, _, h1, rfl, h4, rfl, ?_, ?_⟩
  · have hstock : ∀ items : List OrderItem,
        (stockCalls .add items).filter Call.isPatchStock
          = items.map (fun i => Call.patchStock i.productId i.quantity .add) := by
      intro items
      induction items with
      | nil => rfl
      | cons i rest ih =>
        simp only [stockCalls, List.map_cons] at ih ⊢
        simp [List.filter_cons, Call.isPatchStock, ih]
    have hpub : (publishCalls ctx (.order_status_updated stored._id stored.orderNumber
        status status ctx.now)).filter Call.isPatchStock = [] := by
      unfold publishCalls
      cases ctx.rabbitChannel <;> simp [Call.isPatchStock]
    simp only [List.filter_append, hpub, List.append_nil]
    split
    · simp [hstock, List.filter_cons, Call.isPatchStock]
    · simp [List.filter_cons, Call.isPatchStock]
  · intro hs
    rw [h3]
    simp [hs]

/-- Witness of C3: cancelling a pending order while every stock request is
rejected. -/
theorem updateStatus_stock_calls_witness :
    sampleCtx.findOk = true ∧ sampleCtx.saveOk = true ∧
    findById (storedWorld .pending .pending).orders "65a000000000000000000001"
      = some (sampleOrder .pending .pending) ∧
    (Status.cancelled = .cancelled →
      (sampleOrder .pending .pending).status = .pending ∨
      (sampleOrder .pending .pending).status = .confirmed) ∧
    ∃ (order : Order) (issued : List Call),
      (updateStatus flakyEnv sampleCtx (storedWorld .pending .pending)
          "65a000000000000000000001" (some Status.cancelled.toString) none).2
        = .json 200 order ∧
      order.status = .cancelled ∧
      (updateStatus flakyEnv sampleCtx (storedWorld .pending .pending)
          "65a000000000000000000001" (some Status.cancelled.toString) none).1.calls
        = (storedWorld .pending .pending).calls ++ issued ∧
      issued = [Call.findById "65a000000000000000000001"]
          ++ (if Status.cancelled = .cancelled then
                stockCalls .add (sampleOrder .pending .pending).items else [])
          ++ [Call.save order]
          ++ publishCalls sampleCtx
              (.order_status_updated (sampleOrder .pending .pending)._id
                (sampleOrder .pending .pending).orderNumber .cancelled .cancelled
                sampleCtx.now) ∧
      issued.filter Call.isPatchStock
        = (if Status.cancelled = .cancelled then
            (sampleOrder .pending .pending).items.map
              (fun i => Call.patchStock i.productId i.quantity .add)
           else []) ∧
      (Status.cancelled ≠ .cancelled →
        (updateStatus flakyEnv sampleCtx (storedWorld .pending .pending)
          "65a000000000000000000001" (some Status.cancelled.toString) none).1.inventory
        = (storedWorld .pending .pending).inventory) :=
  ⟨rfl, rfl, by decide, fun _ => Or.inl rfl,
   updateStatus_stock_calls flakyEnv sampleCtx (storedWorld .pending .pending)
     "65a000000000000000000001" .cancelled none (sampleOrder .pending .pending) rfl rfl
     (by decide) (fun _ => Or.inl rfl)⟩

/-- C4: on a stored order in any status, `PATCH /orders/:id/status` with any
status of the enum other than `cancelled` answers 200 and stores the order
with that status, whenever the load and the save resolve; identity and
backward transitions are accepted like any other. -/
theorem updateStatus_non_cancel {σ : Type} (env : Env σ) (ctx : Ctx) (w : World σ)
    (id : String) (status : Status) (note : Option String) (stored : Order)
    (hfind : ctx.findOk = true) (hsave : ctx.saveOk = true)
    (hstored : findById w.orders id = some stored)
    (hstatus : status ≠ .cancelled) :
    ∃ order : Order,
      (updateStatus env ctx w id (some status.toString) note).2 = .json 200 order ∧
      findById (updateStatus env ctx w id (some status.toString) note).1.orders id
        = some order ∧
      order.status = status := by
  obtain ⟨h1, h2, -, -⟩ :=
    updateStatus_accepted env ctx w id status note stored hfind hsave hstored
      (by simp [cancelRefused, hstatus])
  refine ⟨statusApplied ctx stored status note, h1, ?_, rfl⟩
  rw [h2]
  exact findById_replaceOrder_same w.orders id stored _ hstored
    (findById_id w.orders id stored hstored)

/-- Witness of C4: a delivered order goes back to `processing`. -/
theorem updateStatus_non_cancel_witness :
    sampleCtx.findOk = true ∧ sampleCtx.saveOk = true ∧
    findById (storedWorld .delivered .paid).orders "65a000000000000000000001"
      = some (sampleOrder .delivered .paid) ∧
    Status.processing ≠ .cancelled ∧
    ∃ order : Order,
      (updateStatus flakyEnv sampleCtx (storedWorld .delivered .paid)
          "65a000000000000000000001" (some Status.processing.toString) none).2
        = .json 200 order ∧
      findById (updateStatus flakyEnv sampleCtx (storedWorld .delivered .paid)
          "65a000000000000000000001" (some Status.processing.toString) none).1.orders
          "65a000000000000000000001" = some order ∧
      order.status = .processing :=
  ⟨rfl, rfl, by decide, by decide,
   updateStatus_non_cancel flakyEnv sampleCtx (storedWorld .delivered .paid)
     "65a000000000000000000001" .processing none (sampleOrder .delivered .paid) rfl rfl
     (by decide) (by decide)⟩

/-! ## Payment updates -/

/-- C5: on a stored order whose status is `pending`, `PATCH /orders/:id/payment`
with `paid` answers 200 and stores the order with `paymentStatus` `paid`,
status `confirmed`, and the old history followed by exactly one entry, of
status `confirmed` and note "Payment received", whenever the load and the
save resolve. -/
theorem updatePayment_paid_confirms {σ : Type} (ctx : Ctx) (w : World σ) (id : String)
    (stored : Order)
    (hfind : ctx.findOk = true) (hsave : ctx.saveOk = true)
    (hstored : findById w.orders id = some stored)
    (hpending : stored.status = .pending) :
    ∃ order : Order,
      (updatePayment ctx w id (some "paid")).2 = .json 200 order ∧
      findById (updatePayment ctx w id (some "paid")).1.orders id = some order ∧
      order.paymentStatus = .paid ∧
      order.status = .confirmed ∧
      order.statusHistory = stored.statusHistory ++
        [{ status := .confirmed, timestamp := ctx.now, note := "Payment received" }] := by
  have hid := findById_id w.orders id stored hstored
  rw [updatePayment_paid_pending ctx w id stored hfind hstored hpending, if_pos hsave]
  refine ⟨paymentConfirmed ctx stored, rfl, ?_, rfl, rfl, rfl⟩
  simp only [publishOrderEvent_orders]
  exact findById_replaceOrder_same _ id (paymentApplied ctx stored .paid) _
    (findById_replaceOrder_same w.orders id stored _ hstored hid) hid

/-- Witness of C5: paying for a pending order. -/
theorem updatePayment_paid_confirms_witness :
    sampleCtx.findOk = true ∧ sampleCtx.saveOk = true ∧
    findById (storedWorld .pending .pending).orders "65a000000000000000000001"
      = some (sampleOrder .pending .pending) ∧
    (sampleOrder .pending .pending).status = .pending ∧
    ∃ order : Order,
      (updatePayment sampleCtx (storedWorld .pending .pending) "65a000000000000000000001"
          (some "paid")).2 = .json 200 order ∧
      findById (updatePayment sampleCtx (storedWorld .pending .pending)
          "65a000000000000000000001" (some "paid")).1.orders "65a000000000000000000001"
        = some order ∧
      order.paymentStatus = .paid ∧
      order.status = .confirmed ∧
      order.statusHistory = (sampleOrder .pending .pending).statusHistory ++
        [{ status := .confirmed, timestamp := sampleCtx.now, note := "Payment received" }] :=
  ⟨rfl, rfl, by decide, rfl,
   updatePayment_paid_confirms sampleCtx (storedWorld .pending .pending)
     "65a000000000000000000001" (sampleOrder .pending .pending) rfl rfl (by decide) rfl⟩

/-- C6: on a stored order, `PATCH /orders/:id/payment` with a payment status of
the enum that is not `paid`, or on an order that is not `pending`, answers 200
and stores the order with the requested `paymentStatus` and with `status` and
`statusHistory` exactly as they were, whenever the load resolves; no save
follows the first write. -/
theorem updatePayment_frame {σ : Type} (ctx : Ctx) (w : World σ) (id : String)
    (paymentStatus : PaymentStatus) (stored : Order)
    (hfind : ctx.findOk = true)
    (hstored : findById w.orders id = some stored)
    (hplain : paymentStatus ≠ .paid ∨ stored.status ≠ .pending) :
    ∃ order : Order,
      (updatePayment ctx w id (some paymentStatus.toString)).2 = .json 200 order ∧
      findById (updatePayment ctx w id (some paymentStatus.toString)).1.orders id
        = some order ∧
      order.paymentStatus = paymentStatus ∧
      order.status = stored.status ∧
      order.statusHistory = stored.statusHistory ∧
      (updatePayment ctx w id (some paymentStatus.toString)).1.calls
        = w.calls ++ [Call.findByIdAndUpdate id paymentStatus ctx.now]
            ++ publishCalls ctx
                (.payment_status_updated stored._id stored.orderNumber paymentStatus ctx.now) := by
  have hid := findById_id w.orders id stored hstored
  rw [updatePayment_plain ctx w id paymentStatus stored hfind hstored hplain]
  refine ⟨paymentApplied ctx stored paymentStatus, rfl, ?_, rfl, rfl, rfl, ?_⟩
  · simp only [publishOrderEvent_orders]
    exact findById_replaceOrder_same w.orders id stored _ hstored hid
  · simp only [publishOrderEvent_calls]

/-- Witness of C6: paying for an order that is already `processing`. -/
theorem updatePayment_frame_witness :
    sampleCtx.findOk = true ∧
    findById (storedWorld .processing .pending).orders "65a000000000000000000001"
      = some (sampleOrder .processing .pending) ∧
    (PaymentStatus.paid ≠ .paid ∨ (sampleOrder .processing .pending).status ≠ .pending) ∧
    ∃ order : Order,
      (updatePayment sampleCtx (storedWorld .processing .pending) "65a000000000000000000001"
          (some PaymentStatus.paid.toString)).2 = .json 200 order ∧
      findById (updatePayment sampleCtx (storedWorld .processing .pending)
          "65a000000000000000000001" (some PaymentStatus.paid.toString)).1.orders
          "65a000000000000000000001" = some order ∧
      order.paymentStatus = .paid ∧
      order.status = (sampleOrder .processing .pending).status ∧
      order.statusHistory = (sampleOrder .processing .pending).statusHistory ∧
      (updatePayment sampleCtx (storedWorld .processing .pending) "65a000000000000000000001"
          (some PaymentStatus.paid.toString)).1.calls
        = (storedWorld .processing .pending).calls
            ++ [Call.findByIdAndUpdate "65a000000000000000000001" .paid sampleCtx.now]
            ++ publishCalls sampleCtx
                (.payment_status_updated (sampleOrder .processing .pending)._id
                  (sampleOrder .processing .pending).orderNumber .paid sampleCtx.now) :=
  ⟨rfl, by decide, Or.inr (by decide),
   updatePayment_frame sampleCtx (storedWorld .processing .pending)
     "65a000000000000000000001" .paid (sampleOrder .processing .pending) rfl (by decide)
     (Or.inr (by decide))⟩

/-! ## The status history -/

/-- C7: `statusHistory` is append-only.  For every stored order and every run
of `PATCH /orders/:id/status` or `PATCH /orders/:id/payment`, whatever the
request, the order is still stored afterwards; its history is the old one
followed by exactly one entry when the run is a status update of that order
answering 200, or a payment update that changes its status, and is the old
one unchanged otherwise; so its length never decreases. -/
theorem statusHistory_append_only {σ : Type} (env : Env σ) (ctx : Ctx) (w : World σ)
    (id : String) (status note paymentStatus : Option String) (id1 : String) (stored : Order)
    (hstored : findById w.orders id1 = some stored) :
    (∃ after : Order,
      findById (updateStatus env ctx w id status note).1.orders id1 = some after ∧
      (((∃ o, (updateStatus env ctx w id status note).2 = .json 200 o) ∧ id1 = id) →
        ∃ e, after.statusHistory = stored.statusHistory ++ [e]) ∧
      (¬ ((∃ o, (updateStatus env ctx w id status note).2 = .json 200 o) ∧ id1 = id) →
        after.statusHistory = stored.statusHistory) ∧
      stored.statusHistory.length ≤ after.statusHistory.length) ∧
    (∃ after : Order,
      findById (updatePayment ctx w id paymentStatus).1.orders id1 = some after ∧
      (after.status ≠ stored.status → ∃ e, after.statusHistory = stored.statusHistory ++ [e]) ∧
      (after.status = stored.status → after.statusHistory = stored.statusHistory) ∧
      stored.statusHistory.length ≤ after.statusHistory.length) := by
  constructor
  · rcases updateStatus_cases env ctx w id status note with
      ⟨ho, code, error, hr⟩ | ⟨st0, st, hfound, ho, hr⟩
    · refine ⟨stored, by rw [ho]; exact hstored, ?_, fun _ => rfl, le_refl _⟩
      rintro ⟨⟨o, hjson⟩, -⟩
      rw [hr] at hjson
      cases hjson
    · have hid := findById_id w.orders id st0 hfound
      by_cases hsame : id1 = id
      · subst hsame
        rw [hstored] at hfound
        cases hfound
        refine ⟨statusApplied ctx stored st note, ?_, fun _ => ⟨_, rfl⟩, ?_, ?_⟩
        · rw [ho]
          exact findById_replaceOrder_same w.orders id1 stored _ hstored hid
        · intro hneg
          exact absurd ⟨⟨_, hr⟩, rfl⟩ hneg
        · simp [statusApplied]
      · refine ⟨stored, ?_, fun h => absurd h.2 hsame, fun _ => rfl, le_refl _⟩
        rw [ho, findById_replaceOrder_other w.orders id1 _ (by
          show st0._id ≠ id1
          rw [hid]; exact fun h => hsame h.symm)]
        exact hstored
  · rcases updatePayment_cases ctx w id paymentStatus with
      ⟨ho, -⟩ | ⟨st0, ps, hfound, ho⟩ | ⟨st0, hfound, hpending, ho, -⟩
    · exact ⟨stored, by rw [ho]; exact hstored, fun h => absurd rfl h, fun _ => rfl, le_refl _⟩
    · have hid := findById_id w.orders id st0 hfound
      by_cases hsame : id1 = id
      · subst hsame
        rw [hstored] at hfound
        cases hfound
        refine ⟨paymentApplied ctx stored ps, ?_, fun h => absurd rfl h, fun _ => rfl, le_refl _⟩
        rw [ho]
        exact findById_replaceOrder_same w.orders id1 stored _ hstored hid
      · refine ⟨stored, ?_, fun h => absurd rfl h, fun _ => rfl, le_refl _⟩
        rw [ho, findById_replaceOrder_other w.orders id1 _ (by
          show st0._id ≠ id1
          rw [hid]; exact fun h => hsame h.symm)]
        exact hstored
    · have hid := findById_id w.orders id st0 hfound
      by_cases hsame : id1 = id
      · subst hsame
        rw [hstored] at hfound
        cases hfound
        refine ⟨paymentConfirmed ctx stored, ?_, fun _ => ⟨_, rfl⟩, ?_, ?_⟩
        · rw [ho]
          exact findById_replaceOrder_same _ id1 (paymentApplied ctx stored .paid) _
            (findById_replaceOrder_same w.orders id1 stored _ hstored hid) hid
        · intro h
          rw [hpending] at h
          cases h
        · simp [paymentConfirmed]
      · have hne : st0._id ≠ id1 := by rw [hid]; exact fun h => hsame h.symm
        refine ⟨stored, ?_, fun h => absurd rfl h, fun _ => rfl, le_refl _⟩
        rw [ho, findById_replaceOrder_other _ id1 (paymentConfirmed ctx st0) hne,
          findById_replaceOrder_other w.orders id1 (paymentApplied ctx st0 .paid) hne]
        exact hstored

/-- Witness of C7: a status update then seen from the order it changed. -/
theorem statusHistory_append_only_witness :
    findById (storedWorld .pending .pending).orders "65a000000000000000000001"
      = some (sampleOrder .pending .pending) ∧
    ∃ after : Order,
      findById (updateStatus flakyEnv sampleCtx (storedWorld .pending .pending)
        "65a000000000000000000001" (some "shipped") none).1.orders "65a000000000000000000001"
        = some after ∧
      (sampleOrder .pending .pending).statusHistory.length ≤ after.statusHistory.length :=
  ⟨by decide,
   let ⟨after, h1, _, _, h4⟩ :=
     (statusHistory_append_only flakyEnv sampleCtx (storedWorld .pending .pending)
       "65a000000000000000000001" (some "shipped") none (some "paid")
       "65a000000000000000000001" (sampleOrder .pending .pending) (by decide)).1
   ⟨after, h1, h4⟩⟩

/-! ## Events and order numbers -/

/-- C11: what the code does where the claim fails.  A `pending` order is moved
to `shipped`; the call answers 200, and the `order_status_updated` event sent
to the queue carries `shipped` as `oldStatus` as well as `newStatus`, because
the handler reads `order.status` after it has assigned the new status. -/
theorem updateStatus_event_oldStatus_is_new :
    (sampleOrder .pending .pending).status = .pending ∧
    (updateStatus flakyEnv sampleCtx (storedWorld .pending .pending)
        "65a000000000000000000001" (some "shipped") none).2
      = .json 200 (statusApplied sampleCtx (sampleOrder .pending .pending) .shipped none) ∧
    (updateStatus flakyEnv sampleCtx (storedWorld .pending .pending)
        "65a000000000000000000001" (some "shipped") none).1.calls
      = [Call.findById "65a000000000000000000001",
         Call.save (statusApplied sampleCtx (sampleOrder .pending .pending) .shipped none),
         Call.sendToQueue (.order_status_updated "65a000000000000000000001"
           "ORD-LOYW3V28-K3J9X" .shipped .shipped 1700000000000)] := by
  decide

/-- C12: what the code does where the claim fails.  With the clock at
1700000000000, the draw 0.5 (written "0.i") gives an order number whose random
part is the single character `I`, and the draw 0 (written "0") gives one whose
random part is empty; neither matches `ORD-[A-Z0-9]+-[A-Z0-9]{5}`, while a
draw written with five digits or more does. -/
theorem generateOrderNumber_short_suffix :
    generateOrderNumber 1700000000000 "0.i" = "ORD-LOYW3V28-I" ∧
    matchesOrderNumber (generateOrderNumber 1700000000000 "0.i") = false ∧
    generateOrderNumber 1700000000000 "0" = "ORD-LOYW3V28-" ∧
    matchesOrderNumber (generateOrderNumber 1700000000000 "0") = false ∧
    generateOrderNumber 1700000000000 "0.k3j9xq2m7vb" = "ORD-LOYW3V28-K3J9X" ∧
    matchesOrderNumber (generateOrderNumber 1700000000000 "0.k3j9xq2m7vb") = true := by
  decide

/-! ## Further lemmas on the handlers -/

/-- The first loop reaches its end only if every item passes; its result is
then the order items built from the request items and the products reported
for them, after those it started with. -/
theorem collectItems_ok {σ : Type} (env : Env σ) (items : List RequestItem) :
    ∀ (w w1 : World σ) (orderItems built : List OrderItem) (subtotal total : JsNumber),
      collectItems env w items orderItems subtotal = (w1, .ok (built, total)) →
      allItemsPass env w.inventory items = true ∧
      ∃ products : List Product,
        lookupReplies env w.inventory items = products.map InventoryReply.found ∧
        built = orderItems ++ List.zipWith orderItemOf items products := by
  induction items with
  | nil =>
    intro w w1 orderItems built subtotal total h
    simp only [collectItems, Prod.mk.injEq, Except.ok.injEq] at h
    exact ⟨rfl, [], rfl, by simp [h.2.1]⟩
  | cons item rest ih =>
    intro w w1 orderItems built subtotal total h
    simp only [collectItems, validateProductAndGetDetails] at h
    simp only [allItemsPass, lookupReplies]
    rcases hget : env.getProduct w.inventory item.productId with ⟨reply, s1⟩
    rw [hget] at h
    cases reply with
    | notFound => simp at h
    | unreachable => simp at h
    | found product =>
      simp only at h
      by_cases hlt : product.stock < item.quantity
      · simp [hlt] at h
      · simp only [hlt, if_false] at h
        obtain ⟨hpass, products, hreplies, hbuilt⟩ := ih _ _ _ _ _ _ h
        refine ⟨?_, product :: products, ?_, ?_⟩
        · simpa [not_lt.mp hlt] using hpass
        · simpa using hreplies
        · rw [hbuilt]
          simp [orderItemOf]

/-- An early answer of the first loop is an error body. -/
theorem collectItems_error_shape {σ : Type} (env : Env σ) (items : List RequestItem) :
    ∀ (w w1 : World σ) (orderItems : List OrderItem) (subtotal : JsNumber) (response : Response),
      collectItems env w items orderItems subtotal = (w1, .error response) →
      ∃ code error, response = .error code error := by
  induction items with
  | nil =>
    intro w w1 orderItems subtotal response h
    simp [collectItems] at h
  | cons item rest ih =>
    intro w w1 orderItems subtotal response h
    simp only [collectItems, validateProductAndGetDetails] at h
    rcases hget : env.getProduct w.inventory item.productId with ⟨reply, s1⟩
    rw [hget] at h
    cases reply with
    | notFound =>
      simp only [Prod.mk.injEq, Except.error.injEq] at h
      exact ⟨_, _, h.2.symm⟩
    | unreachable =>
      simp only [Prod.mk.injEq, Except.error.injEq] at h
      exact ⟨_, _, h.2.symm⟩
    | found product =>
      simp only at h
      by_cases hlt : product.stock < item.quantity
      · simp only [hlt, if_true, Prod.mk.injEq, Except.error.injEq] at h
        exact ⟨_, _, h.2.symm⟩
      · simp only [hlt, if_false] at h
        exact ih _ _ _ _ _ h

/-- A 2xx answer of `POST /orders`: validation passed, the first loop reached
its end, the store accepted the document, and the answer is 201 with the
document built. -/
theorem createOrder_json {σ : Type} (env : Env σ) (ctx : Ctx) (w : World σ)
    (body : OrderRequest) (code : Nat) (order : Order)
    (h : (createOrder env ctx w body).2 = .json code order) :
    validateOrder env body = none ∧
    ∃ (w1 : World σ) (built : List OrderItem) (subtotal : JsNumber),
      collectItems env w body.items [] 0 = (w1, .ok (built, subtotal)) ∧
      saveSucceeds ctx w1.orders = true ∧ code = 201 ∧
      order = newOrder ctx body built subtotal := by
  unfold createOrder at h
  cases hv : validateOrder env body with
  | some label => simp [hv] at h
  | none =>
    refine ⟨rfl, ?_⟩
    simp only [hv] at h
    rcases hc : collectItems env w body.items [] 0 with ⟨w1, result⟩
    rw [hc] at h
    cases result with
    | error response =>
      simp only at h
      have := collectItems_error_shape env body.items w w1 [] 0 response hc
      rcases this with ⟨code2, e, rfl⟩
      cases h
    | ok pair =>
      obtain ⟨built, subtotal⟩ := pair
      simp only [insertAccepted_newOrder] at h
      cases hs : saveSucceeds ctx w1.orders with
      | false => simp [hs] at h
      | true =>
        simp only [hs, Bool.not_true, Bool.false_eq_true, if_false, Response.json.injEq] at h
        exact ⟨w1, built, subtotal, rfl, hs, h.1.symm, h.2.symm⟩

/-- A request that passes `validateOrder` has at least one item. -/
theorem validateOrder_items {σ : Type} (env : Env σ) (body : OrderRequest)
    (h : validateOrder env body = none) : body.items ≠ [] := by
  intro hnil
  unfold validateOrder at h
  simp only [hnil, validateItems, List.length_nil, Nat.zero_lt_one, if_true] at h
  split_ifs at h

/-- The answer of `POST /orders` to a valid request whose items all pass,
the store accepting the document: 201 with an order that is appended to the
collection under the `_id` and `orderNumber` of the run. -/
theorem createOrder_succeeds {σ : Type} (env : Env σ) (ctx : Ctx) (w : World σ)
    (body : OrderRequest)
    (hvalid : validateOrder env body = none)
    (hpass : allItemsPass env w.inventory body.items = true)
    (hsave : saveSucceeds ctx w.orders = true) :
    ∃ order : Order,
      (createOrder env ctx w body).2 = .json 201 order ∧
      (createOrder env ctx w body).1.orders = w.orders ++ [order] ∧
      order._id = ctx.objectId := by
  obtain ⟨built, h1, h2, -, -, -, -⟩ := collectItems_pass env body.items w [] 0 hpass
  rcases hc : collectItems env w body.items [] 0 with ⟨w1, result⟩
  rw [hc] at h1 h2
  simp only [List.nil_append, zero_add] at h1
  simp only at h1 h2
  subst h1
  rw [← h2] at hsave
  rw [createOrder_of_collect env ctx w w1 body built (itemsTotal built) hvalid hc hsave]
  refine ⟨newOrder ctx body built (itemsTotal built), rfl, ?_, rfl⟩
  simp [publishOrderEvent_orders, updateStockForItems_orders, h2]

/-- The first loop never touches the order collection. -/
theorem collectItems_orders {σ : Type} (env : Env σ) (items : List RequestItem) :
    ∀ (w : World σ) (orderItems : List OrderItem) (subtotal : JsNumber),
      (collectItems env w items orderItems subtotal).1.orders = w.orders := by
  induction items with
  | nil => intro w orderItems subtotal; rfl
  | cons item rest ih =>
    intro w orderItems subtotal
    simp only [collectItems, validateProductAndGetDetails]
    rcases env.getProduct w.inventory item.productId with ⟨reply, s1⟩
    cases reply with
    | notFound => rfl
    | unreachable => rfl
    | found product =>
      simp only
      split
      · rfl
      · rw [ih]

/-- The order collection after `POST /orders`: as it was, or with the order
answered appended. -/
theorem createOrder_orders {σ : Type} (env : Env σ) (ctx : Ctx) (w : World σ)
    (body : OrderRequest) :
    (createOrder env ctx w body).1.orders = w.orders ∨
    ∃ order : Order, (createOrder env ctx w body).1.orders = w.orders ++ [order] := by
  unfold createOrder
  cases validateOrder env body with
  | some label => left; rfl
  | none =>
    simp only
    have ho := collectItems_orders env body.items w [] 0
    rcases hc : collectItems env w body.items [] 0 with ⟨w1, result⟩
    rw [hc] at ho
    simp only at ho
    cases result with
    | error response => left; exact ho
    | ok pair =>
      obtain ⟨built, subtotal⟩ := pair
      simp only
      split
      · left; exact ho
      · right
        refine ⟨newOrder ctx body built subtotal, ?_⟩
        simp [publishOrderEvent_orders, updateStockForItems_orders, ho]

theorem findById_append_left (orders : List Order) (order stored : Order) (id : String)
    (h : findById orders id = some stored) :
    findById (orders ++ [order]) id = some stored := by
  simp only [findById, List.find?_append] at h ⊢
  rw [h]
  rfl

/-- An order appended under a fresh `_id` is the one that `_id` resolves to. -/
theorem findById_append_fresh (ctx : Ctx) (orders : List Order) (order : Order)
    (hsave : saveSucceeds ctx orders = true) (hid : order._id = ctx.objectId) :
    findById (orders ++ [order]) order._id = some order := by
  have hnone : findById orders order._id = none := by
    simp only [findById, List.find?_eq_none]
    intro o ho
    simp only [saveSucceeds, Bool.and_eq_true, List.all_eq_true] at hsave
    have := hsave.2 o ho
    simp only [Bool.and_eq_true, decide_eq_true_eq] at this
    simpa [hid] using this.1
  simp only [findById, List.find?_append] at hnone ⊢
  rw [hnone]
  simp

/-- What any request does to a stored order: it stays stored, as it was or
with one of the three changes the update handlers write. -/
theorem handle_stored {σ : Type} (env : Env σ) (ctx : Ctx) (w : World σ) (request : Request)
    (id1 : String) (stored : Order) (h : findById w.orders id1 = some stored) :
    ∃ after : Order,
      findById (handle env ctx w request).1.orders id1 = some after ∧
      (after = stored ∨
       (∃ st note, after = statusApplied ctx stored st note) ∨
       (∃ ps, after = paymentApplied ctx stored ps) ∨
       (stored.status = .pending ∧ after = paymentConfirmed ctx stored)) := by
  cases request with
  | create body =>
    simp only [handle]
    rcases createOrder_orders env ctx w body with ho | ⟨order, ho⟩
    · exact ⟨stored, by rw [ho]; exact h, Or.inl rfl⟩
    · exact ⟨stored, by rw [ho]; exact findById_append_left _ _ _ _ h, Or.inl rfl⟩
  | status id status note =>
    simp only [handle]
    rcases updateStatus_cases env ctx w id status note with
      ⟨ho, -⟩ | ⟨st0, st, hfound, ho, -⟩
    · exact ⟨stored, by rw [ho]; exact h, Or.inl rfl⟩
    · have hid := findById_id w.orders id st0 hfound
      by_cases hsame : id1 = id
      · subst hsame
        rw [h] at hfound
        cases hfound
        exact ⟨_, by rw [ho]; exact findById_replaceOrder_same w.orders id1 stored _ h hid,
          Or.inr (Or.inl ⟨st, note, rfl⟩)⟩
      · have hne : st0._id ≠ id1 := by rw [hid]; exact fun e => hsame e.symm
        exact ⟨stored, by
          rw [ho, findById_replaceOrder_other w.orders id1 (statusApplied ctx st0 st note) hne]
          exact h, Or.inl rfl⟩
  | payment id paymentStatus =>
    simp only [handle]
    rcases updatePayment_cases ctx w id paymentStatus with
      ⟨ho, -⟩ | ⟨st0, ps, hfound, ho⟩ | ⟨st0, hfound, hpending, ho, -⟩
    · exact ⟨stored, by rw [ho]; exact h, Or.inl rfl⟩
    · have hid := findById_id w.orders id st0 hfound
      by_cases hsame : id1 = id
      · subst hsame
        rw [h] at hfound
        cases hfound
        exact ⟨_, by rw [ho]; exact findById_replaceOrder_same w.orders id1 stored _ h hid,
          Or.inr (Or.inr (Or.inl ⟨ps, rfl⟩))⟩
      · have hne : st0._id ≠ id1 := by rw [hid]; exact fun e => hsame e.symm
        exact ⟨stored, by
          rw [ho, findById_replaceOrder_other w.orders id1 (paymentApplied ctx st0 ps) hne]
          exact h, Or.inl rfl⟩
    · have hid := findById_id w.orders id st0 hfound
      by_cases hsame : id1 = id
      · subst hsame
        rw [h] at hfound
        cases hfound
        refine ⟨paymentConfirmed ctx stored, ?_, Or.inr (Or.inr (Or.inr ⟨hpending, rfl⟩))⟩
        rw [ho]
        exact findById_replaceOrder_same _ id1 (paymentApplied ctx stored .paid) _
          (findById_replaceOrder_same w.orders id1 stored _ h hid) hid
      · have hne : st0._id ≠ id1 := by rw [hid]; exact fun e => hsame e.symm
        exact ⟨stored, by
          rw [ho, findById_replaceOrder_other _ id1 (paymentConfirmed ctx st0) hne,
            findById_replaceOrder_other w.orders id1 (paymentApplied ctx st0 .paid) hne]
          exact h, Or.inl rfl⟩

/-- A relation between the stored versions of an order that holds across
each change the update handlers write holds across every run. -/
theorem run_stored {σ : Type} (env : Env σ) (R : Order → Order → Prop)
    (hrefl : ∀ o, R o o)
    (htrans : ∀ a b c, R a b → R b c → R a c)
    (hstatus : ∀ ctx o st note, R o (statusApplied ctx o st note))
    (hpayment : ∀ ctx o ps, R o (paymentApplied ctx o ps))
    (hconfirmed : ∀ ctx o, o.status = .pending → R o (paymentConfirmed ctx o))
    (steps : List (Ctx × Request)) :
    ∀ (w : World σ) (id1 : String) (stored : Order),
      findById w.orders id1 = some stored →
      ∃ after : Order, findById (run env w steps).orders id1 = some after ∧ R stored after := by
  induction steps with
  | nil => intro w id1 stored h; exact ⟨stored, h, hrefl stored⟩
  | cons step rest ih =>
    intro w id1 stored h
    obtain ⟨ctx, request⟩ := step
    obtain ⟨mid, hmid, hshape⟩ := handle_stored env ctx w request id1 stored h
    obtain ⟨after, hafter, hR⟩ := ih (handle env ctx w request).1 id1 mid hmid
    refine ⟨after, hafter, htrans stored mid after ?_ hR⟩
    rcases hshape with rfl | ⟨st, note, rfl⟩ | ⟨ps, rfl⟩ | ⟨hp, rfl⟩
    · exact hrefl _
    · exact hstatus ctx stored st note
    · exact hpayment ctx stored ps
    · exact hconfirmed ctx stored hp

/-- The order `POST /orders` answers with is the one its `_id` resolves to in
the collection afterwards. -/
theorem createOrder_stored {σ : Type} (env : Env σ) (ctx : Ctx) (w : World σ)
    (body : OrderRequest) (code : Nat) (order : Order)
    (h : (createOrder env ctx w body).2 = .json code order) :
    findById (createOrder env ctx w body).1.orders order._id = some order := by
  obtain ⟨hvalid, w1, built, subtotal, hcollect, hsave, -, rfl⟩ :=
    createOrder_json env ctx w body code order h
  rw [createOrder_of_collect env ctx w w1 body built subtotal hvalid hcollect hsave]
  simp only [publishOrderEvent_orders, updateStockForItems_orders]
  exact findById_append_fresh ctx w1.orders _ hsave rfl

/-! ## Unknown order identifiers -/

/-- C13, as stated, fails twice over.  For an identifier that resolves to no
stored order and a status (or payment status) outside the enum, the handlers
answer 400 "Invalid status" ("Invalid payment status") and never reach the
load; and for a value of the enum and a load that rejects, as it does for an
identifier that cannot be cast to an ObjectId, they answer 500. -/
theorem unknown_id_not_always_404 :
    findById (storedWorld .pending .pending).orders "65a0000000000000000000ff" = none ∧
    (updateStatus flakyEnv sampleCtx (storedWorld .pending .pending)
        "65a0000000000000000000ff" (some "archived") none).2 = .error 400 .invalidStatus ∧
    (updateStatus flakyEnv sampleCtx (storedWorld .pending .pending)
        "65a0000000000000000000ff" (some "archived") none).1.calls = [] ∧
    (updatePayment sampleCtx (storedWorld .pending .pending)
        "65a0000000000000000000ff" (some "settled")).2 = .error 400 .invalidPaymentStatus ∧
    (updatePayment sampleCtx (storedWorld .pending .pending)
        "65a0000000000000000000ff" (some "settled")).1.calls = [] ∧
    findById (storedWorld .pending .pending).orders "not-an-id" = none ∧
    (updateStatus flakyEnv { sampleCtx with findOk := false } (storedWorld .pending .pending)
        "not-an-id" (some "shipped") none).2 = .error 500 .internalServerError ∧
    (updatePayment { sampleCtx with findOk := false } (storedWorld .pending .pending)
        "not-an-id" (some "paid")).2 = .error 500 .internalServerError := by
  decide

/-- C13, amended: for an identifier that resolves to no stored order, the
status handler and the payment handler answer 400 when the value is missing
or outside the enum, the check of the value coming before the load; for a
value of the enum they answer 500 when the load rejects and 404 "Order not
found" when it resolves; in every case the order collection and the product
service are left as they were, and the only call issued is the load, when it
is reached: no save, no queue send. -/
theorem update_unknown_id {σ : Type} (env : Env σ) (ctx : Ctx) (w : World σ) (id : String)
    (status note paymentStatus : Option String)
    (hnone : findById w.orders id = none) :
    ((updateStatus env ctx w id status note).2
        = (if truthy status = false then .error 400 .statusRequired
           else if Status.ofString (status.getD "") = none then .error 400 .invalidStatus
           else if ctx.findOk = false then .error 500 .internalServerError
           else .error 404 .orderNotFound) ∧
      (updateStatus env ctx w id status note).1.orders = w.orders ∧
      (updateStatus env ctx w id status note).1.inventory = w.inventory ∧
      (updateStatus env ctx w id status note).1.calls
        = w.calls ++ (if truthy status = false then []
                      else if Status.ofString (status.getD "") = none then []
                      else [Call.findById id])) ∧
    ((updatePayment ctx w id paymentStatus).2
        = (if truthy paymentStatus = false then .error 400 .paymentStatusRequired
           else if PaymentStatus.ofString (paymentStatus.getD "") = none then
             .error 400 .invalidPaymentStatus
           else if ctx.findOk = false then .error 500 .internalServerError
           else .error 404 .orderNotFound) ∧
      (updatePayment ctx w id paymentStatus).1.orders = w.orders ∧
      (updatePayment ctx w id paymentStatus).1.inventory = w.inventory ∧
      (updatePayment ctx w id paymentStatus).1.calls
        = w.calls ++ (match PaymentStatus.ofString (paymentStatus.getD "") with
                      | some value =>
                        if truthy paymentStatus = false then []
                        else [Call.findByIdAndUpdate id value ctx.now]
                      | none => [])) := by
  constructor
  · unfold updateStatus
    cases ht : truthy status with
    | false => simp
    | true =>
      cases hs : Status.ofString (status.getD "") with
      | none => simp
      | some st => cases hf : ctx.findOk <;> simp [hnone]
  · unfold updatePayment
    cases ht : truthy paymentStatus with
    | false => cases PaymentStatus.ofString (paymentStatus.getD "") <;> simp
    | true =>
      cases hs : PaymentStatus.ofString (paymentStatus.getD "") with
      | none => simp
      | some ps => cases hf : ctx.findOk <;> simp [hnone]

/-- Witness of C13, amended: an unknown identifier with the status `shipped`
and the payment status `paid`, the load resolving. -/
theorem update_unknown_id_witness :
    findById (storedWorld .pending .pending).orders "65a0000000000000000000ff" = none ∧
    (updateStatus flakyEnv sampleCtx (storedWorld .pending .pending)
        "65a0000000000000000000ff" (some "shipped") none).2 = .error 404 .orderNotFound ∧
    (updatePayment sampleCtx (storedWorld .pending .pending)
        "65a0000000000000000000ff" (some "paid")).2 = .error 404 .orderNotFound :=
  ⟨by decide,
   (update_unknown_id flakyEnv sampleCtx (storedWorld .pending .pending)
      "65a0000000000000000000ff" (some "shipped") none (some "paid") (by decide)).1.1,
   (update_unknown_id flakyEnv sampleCtx (storedWorld .pending .pending)
      "65a0000000000000000000ff" (some "shipped") none (some "paid") (by decide)).2.1⟩

/-! ## The order returned by a creation -/

/-- C14: every order `POST /orders` answers with comes with code 201, has
status `pending`, payment status `pending`, a history of exactly one entry, of
status `pending` and note "Order created", and a non-empty list of items, one
per request item in request order, each with the requested `productId` and
`quantity`, the name and unit price of the product the lookup reported for
that item, and `subtotal` equal to quantity times unit price, the product
being the one JavaScript computes. -/
theorem createOrder_returned_order {σ : Type} (env : Env σ) (ctx : Ctx) (w : World σ)
    (body : OrderRequest) (code : Nat) (order : Order)
    (h : (createOrder env ctx w body).2 = .json code order) :
    code = 201 ∧
    order.status = .pending ∧
    order.paymentStatus = .pending ∧
    order.statusHistory
      = [{ status := .pending, timestamp := ctx.now, note := "Order created" }] ∧
    order.items ≠ [] ∧
    order.items.length = body.items.length ∧
    (∃ products : List Product,
      lookupReplies env w.inventory body.items = products.map InventoryReply.found ∧
      order.items = List.zipWith
        (fun item product =>
          { productId := item.productId, productName := product.name,
            quantity := item.quantity, price := product.price,
            subtotal := jsMul (.finite product.price) (.finite item.quantity) })
        body.items products) ∧
    ∀ i ∈ order.items, i.subtotal = jsMul (.finite i.quantity) (.finite i.price) := by
  obtain ⟨hvalid, w1, built, subtotal, hcollect, -, hcode, rfl⟩ :=
    createOrder_json env ctx w body code order h
  obtain ⟨-, products, hreplies, hbuilt⟩ :=
    collectItems_ok env body.items w w1 [] built 0 subtotal hcollect
  simp only [List.nil_append] at hbuilt
  have hlen : products.length = body.items.length := by
    have := congrArg List.length hreplies
    have hl : ∀ (s : σ) (items : List RequestItem),
        (lookupReplies env s items).length = items.length := by
      intro s items
      induction items generalizing s with
      | nil => rfl
      | cons item rest ih => simp [lookupReplies, ih]
    rw [hl, List.length_map] at this
    exact this.symm
  have hitems : (newOrder ctx body built subtotal).items = built := rfl
  refine ⟨hcode, rfl, rfl, rfl, ?_, ?_, ⟨products, hreplies, ?_⟩, ?_⟩
  · rw [hitems, hbuilt]
    intro hnil
    have := congrArg List.length hnil
    simp only [List.length_zipWith, hlen, min_self, List.length_nil] at this
    exact validateOrder_items env body hvalid (List.length_eq_zero.mp this)
  · rw [hitems, hbuilt]
    simp [hlen]
  · rw [hitems, hbuilt]
    rfl
  · rw [hitems, hbuilt]
    intro i hi
    obtain ⟨n, hn, rfl⟩ := List.getElem_of_mem hi
    simp [orderItemOf, jsMul, mul_comm]

/-- Witness of C14: the three items of `mixedRequest`. -/
theorem createOrder_returned_order_witness :
    ∃ order : Order,
      (createOrder flakyEnv sampleCtx flakyWorld (mixedRequest "P1")).2 = .json 201 order ∧
      order.status = .pending ∧
      order.paymentStatus = .pending ∧
      order.statusHistory
        = [{ status := .pending, timestamp := sampleCtx.now, note := "Order created" }] ∧
      order.items.length = (mixedRequest "P1").items.length :=
  let ⟨order, h, _⟩ := createOrder_succeeds flakyEnv sampleCtx flakyWorld (mixedRequest "P1")
    (by decide) (by decide) (by decide)
  ⟨order, h,
   (createOrder_returned_order flakyEnv sampleCtx flakyWorld (mixedRequest "P1") 201 order
      h).2.1,
   (createOrder_returned_order flakyEnv sampleCtx flakyWorld (mixedRequest "P1") 201 order
      h).2.2.1,
   (createOrder_returned_order flakyEnv sampleCtx flakyWorld (mixedRequest "P1") 201 order
      h).2.2.2.1,
   (createOrder_returned_order flakyEnv sampleCtx flakyWorld (mixedRequest "P1") 201 order
      h).2.2.2.2.2.1⟩

/-- C16: a valid creation request with the single item `P1` in quantity 2,
where the lookup of `P1` reports "Widget" at unit price 50 with 10 in stock,
is answered 201 (the store accepting the document) with an order of subtotal
100, tax 10, shipping 10 (the subtotal is not above 100) and total 120. -/
theorem createOrder_widget_scenario {σ : Type} (env : Env σ) (ctx : Ctx) (w : World σ)
    (body : OrderRequest)
    (hvalid : validateOrder env body = none)
    (hitems : body.items = [{ productId := "P1", quantity := 2 }])
    (hget : (env.getProduct w.inventory "P1").1
              = .found { name := "Widget", price := 50, stock := 10 })
    (hsave : saveSucceeds ctx w.orders = true) :
    ∃ order : Order,
      (createOrder env ctx w body).2 = .json 201 order ∧
      order.items = [{ productId := "P1", productName := "Widget", quantity := 2,
                       price := 50, subtotal := 100 }] ∧
      order.subtotal = 100 ∧ order.tax = 10 ∧ order.shipping = 10 ∧ order.total = 120 := by
  have hcollect : collectItems env w body.items [] 0
      = ({ w with inventory := (env.getProduct w.inventory "P1").2,
                  calls := w.calls ++ [Call.getProduct "P1"] },
         .ok ([{ productId := "P1", productName := "Widget", quantity := 2,
                 price := 50, subtotal := 100 }], 100)) := by
    have h1 : jsMul (.finite 50) (.finite 2) = 100 := by decide!
    have h2 : jsAdd 0 100 = 100 := by decide!
    have h3 : ¬ ((10 : ℚ) < 2) := by norm_num
    rw [hitems]
    simp only [collectItems, validateProductAndGetDetails, hget, h1, h2, h3, if_false,
      List.nil_append]
  rw [createOrder_of_collect env ctx w _ body _ _ hvalid hcollect hsave]
  refine ⟨_, rfl, rfl, rfl, ?_, ?_, ?_⟩ <;> simp only [newOrder] <;> decide!

/-- Witness of C16: `widgetEnv` in front of an empty collection. -/
theorem createOrder_widget_scenario_witness :
    validateOrder widgetEnv (sampleRequest 2) = none ∧
    (sampleRequest 2).items = [{ productId := "P1", quantity := 2 }] ∧
    (widgetEnv.getProduct emptyWorld.inventory "P1").1
      = .found { name := "Widget", price := 50, stock := 10 } ∧
    saveSucceeds sampleCtx emptyWorld.orders = true ∧
    ∃ order : Order,
      (createOrder widgetEnv sampleCtx emptyWorld (sampleRequest 2)).2 = .json 201 order ∧
      order.items = [{ productId := "P1", productName := "Widget", quantity := 2,
                       price := 50, subtotal := 100 }] ∧
      order.subtotal = 100 ∧ order.tax = 10 ∧ order.shipping = 10 ∧ order.total = 120 :=
  ⟨by decide, rfl, rfl, by decide,
   createOrder_widget_scenario widgetEnv sampleCtx emptyWorld (sampleRequest 2)
     (by decide) rfl rfl (by decide)⟩

/-! ## Orders across runs -/

/-- C15: across every sequence of requests, successful or not, a stored order
stays stored with the same `orderNumber`, `items`, `subtotal`, `tax`,
`shipping`, `total` and `createdAt`; hence an order answered by `POST /orders`
satisfies `total = subtotal + subtotal * 0.1 + (0 if subtotal > 100 else 10)`,
the sums and the product being those JavaScript computes, after every
sequence of requests that follows. -/
theorem order_fixed_fields {σ : Type} (env : Env σ) (steps : List (Ctx × Request)) :
    (∀ (w : World σ) (id1 : String) (stored : Order),
      findById w.orders id1 = some stored →
      ∃ after : Order,
        findById (run env w steps).orders id1 = some after ∧
        after.orderNumber = stored.orderNumber ∧ after.items = stored.items ∧
        after.subtotal = stored.subtotal ∧ after.tax = stored.tax ∧
        after.shipping = stored.shipping ∧ after.total = stored.total ∧
        after.createdAt = stored.createdAt) ∧
    (∀ (ctx0 : Ctx) (w0 : World σ) (body : OrderRequest) (code : Nat) (order : Order),
      (createOrder env ctx0 w0 body).2 = .json code order →
      ∃ after : Order,
        findById (run env (createOrder env ctx0 w0 body).1 steps).orders order._id
          = some after ∧
        after.total
          = jsAdd (jsAdd after.subtotal (jsMul after.subtotal (.finite tenth)))
              (if jsLt 100 after.subtotal then 0 else 10)) := by
  have hrun : ∀ (w : World σ) (id1 : String) (stored : Order),
      findById w.orders id1 = some stored →
      ∃ after : Order,
        findById (run env w steps).orders id1 = some after ∧ sameFixedFields stored after :=
    run_stored env sameFixedFields
      (fun o => ⟨rfl, rfl, rfl, rfl, rfl, rfl, rfl, rfl⟩)
      (fun a b c hab hbc =>
        ⟨hbc.1.trans hab.1, hbc.2.1.trans hab.2.1, hbc.2.2.1.trans hab.2.2.1,
         hbc.2.2.2.1.trans hab.2.2.2.1, hbc.2.2.2.2.1.trans hab.2.2.2.2.1,
         hbc.2.2.2.2.2.1.trans hab.2.2.2.2.2.1, hbc.2.2.2.2.2.2.1.trans hab.2.2.2.2.2.2.1,
         hbc.2.2.2.2.2.2.2.trans hab.2.2.2.2.2.2.2⟩)
      (fun _ _ _ _ => ⟨rfl, rfl, rfl, rfl, rfl, rfl, rfl, rfl⟩)
      (fun _ _ _ => ⟨rfl, rfl, rfl, rfl, rfl, rfl, rfl, rfl⟩)
      (fun _ _ _ => ⟨rfl, rfl, rfl, rfl, rfl, rfl, rfl, rfl⟩)
      steps
  constructor
  · intro w id1 stored hstored
    obtain ⟨after, hafter, -, h2, h3, h4, h5, h6, h7, h8⟩ := hrun w id1 stored hstored
    exact ⟨after, hafter, h2, h3, h4, h5, h6, h7, h8⟩
  · intro ctx0 w0 body code order hcreate
    obtain ⟨after, hafter, -, -, -, h4, h5, h6, h7, -⟩ :=
      hrun _ order._id order (createOrder_stored env ctx0 w0 body code order hcreate)
    refine ⟨after, hafter, ?_⟩
    obtain ⟨-, w1, built, subtotal, -, -, -, rfl⟩ :=
      createOrder_json env ctx0 w0 body code order hcreate
    rw [h7, h4]
    rfl

/-- Witness of C15: `sampleOrder` and a fresh order, each across a
cancellation and a payment. -/
theorem order_fixed_fields_witness :
    (∃ after : Order,
      findById (run flakyEnv (storedWorld .pending .pending) sampleUpdates).orders
        "65a000000000000000000001" = some after ∧
      after.total = (sampleOrder .pending .pending).total) ∧
    ∃ order : Order,
      (createOrder flakyEnv sampleCtx flakyWorld (mixedRequest "P1")).2 = .json 201 order ∧
      ∃ after : Order,
        findById (run flakyEnv (createOrder flakyEnv sampleCtx flakyWorld
          (mixedRequest "P1")).1 sampleUpdates).orders order._id = some after ∧
        after.total
          = jsAdd (jsAdd after.subtotal (jsMul after.subtotal (.finite tenth)))
              (if jsLt 100 after.subtotal then 0 else 10) :=
  let ⟨order, h, _⟩ := createOrder_succeeds flakyEnv sampleCtx flakyWorld (mixedRequest "P1")
    (by decide) (by decide) (by decide)
  let ⟨after, h1, _, _, _, _, _, h7, _⟩ :=
    (order_fixed_fields flakyEnv sampleUpdates).1 (storedWorld .pending .pending)
      "65a000000000000000000001" (sampleOrder .pending .pending) (by decide)
  ⟨⟨after, h1, h7⟩, order, h,
   (order_fixed_fields flakyEnv sampleUpdates).2 sampleCtx flakyWorld (mixedRequest "P1")
      201 order h⟩

/-- C17: an order answered by `POST /orders` has, after every sequence of
requests that follows, a non-empty `statusHistory` whose last entry carries
the order's current status. -/
theorem history_tracks_status {σ : Type} (env : Env σ) (ctx0 : Ctx) (w0 : World σ)
    (body : OrderRequest) (code : Nat) (order : Order) (steps : List (Ctx × Request))
    (hcreate : (createOrder env ctx0 w0 body).2 = .json code order) :
    ∃ after : Order,
      findById (run env (createOrder env ctx0 w0 body).1 steps).orders order._id = some after ∧
      after.statusHistory ≠ [] ∧
      after.statusHistory.getLast?.map (fun e => e.status) = some after.status := by
  obtain ⟨after, hafter, hR⟩ :=
    run_stored env
      (fun a b => lastHistoryStatus a = some a.status → lastHistoryStatus b = some b.status)
      (fun _ h => h)
      (fun _ _ _ hab hbc h => hbc (hab h))
      (fun _ _ _ _ _ => by simp [lastHistoryStatus, statusApplied])
      (fun _ _ _ h => h)
      (fun _ _ _ _ => by simp [lastHistoryStatus, paymentConfirmed])
      steps _ order._id order (createOrder_stored env ctx0 w0 body code order hcreate)
  have hlast : lastHistoryStatus after = some after.status := by
    apply hR
    obtain ⟨-, w1, built, subtotal, -, -, -, rfl⟩ :=
      createOrder_json env ctx0 w0 body code order hcreate
    rfl
  refine ⟨after, hafter, ?_, hlast⟩
  intro hnil
  simp [lastHistoryStatus, hnil] at hlast

/-- Witness of C17: a fresh order across a cancellation and a payment. -/
theorem history_tracks_status_witness :
    ∃ order : Order,
      (createOrder flakyEnv sampleCtx flakyWorld (mixedRequest "P1")).2 = .json 201 order ∧
      ∃ after : Order,
        findById (run flakyEnv (createOrder flakyEnv sampleCtx flakyWorld
          (mixedRequest "P1")).1 sampleUpdates).orders order._id = some after ∧
        after.statusHistory ≠ [] ∧
        after.statusHistory.getLast?.map (fun e => e.status) = some after.status :=
  let ⟨order, h, _⟩ := createOrder_succeeds flakyEnv sampleCtx flakyWorld (mixedRequest "P1")
    (by decide) (by decide) (by decide)
  ⟨order, h,
   history_tracks_status flakyEnv sampleCtx flakyWorld (mixedRequest "P1") 201 order
     sampleUpdates h⟩

/-! ## Compensation -/

theorem filter_isPatchStock_stockCalls (operation : StockOp) (items : List OrderItem) :
    (stockCalls operation items).filter Call.isPatchStock = stockCalls operation items := by
  induction items with
  | nil => rfl
  | cons i rest ih =>
    simp only [stockCalls, List.map_cons] at ih ⊢
    simp [List.filter_cons, Call.isPatchStock, ih]

theorem filter_isPatchStock_lookupCalls (items : List RequestItem) :
    (lookupCalls items).filter Call.isPatchStock = [] := by
  induction items with
  | nil => rfl
  | cons i rest ih =>
    simp only [lookupCalls, List.map_cons] at ih ⊢
    simp [List.filter_cons, Call.isPatchStock, ih]

theorem filter_isPatchStock_publishCalls (ctx : Ctx) (event : Event) :
    (publishCalls ctx event).filter Call.isPatchStock = [] := by
  unfold publishCalls
  cases ctx.rabbitChannel <;> simp [Call.isPatchStock]

/-- The calls of a creation answered with an order: among them, the stock
requests are one `subtract` per item of the order, in item order. -/
theorem createOrder_stock_calls {σ : Type} (env : Env σ) (ctx : Ctx) (w : World σ)
    (body : OrderRequest) (code : Nat) (order : Order)
    (h : (createOrder env ctx w body).2 = .json code order) :
    ∃ issued : List Call,
      (createOrder env ctx w body).1.calls = w.calls ++ issued ∧
      issued.filter Call.isPatchStock = stockCalls .subtract order.items ∧
      (createOrder env ctx w body).1.inventory
        = inventoryAfterStock env .subtract
            (inventoryAfterLookups env w.inventory body.items) order.items := by
  obtain ⟨hvalid, w1, built, subtotal, hcollect, hsave, -, rfl⟩ :=
    createOrder_json env ctx w body code order h
  obtain ⟨hpass, -⟩ := collectItems_ok env body.items w w1 [] built 0 subtotal hcollect
  obtain ⟨built2, -, -, h3, h4, -, -⟩ := collectItems_pass env body.items w [] 0 hpass
  rw [hcollect] at h3 h4
  simp only at h3 h4
  rw [createOrder_of_collect env ctx w w1 body built subtotal hvalid hcollect hsave]
  simp only [publishOrderEvent_calls, publishOrderEvent_inventory, updateStockForItems_calls,
    updateStockForItems_inventory, h3, h4]
  refine ⟨lookupCalls body.items
      ++ [Call.save (newOrder ctx body built subtotal)]
      ++ stockCalls .subtract built
      ++ publishCalls ctx (.order_created ctx.objectId ctx.orderNumber body.userId
          (newOrder ctx body built subtotal).total ctx.now), ?_, ?_, rfl⟩
  · simp [List.append_assoc]
  · simp only [List.filter_append, filter_isPatchStock_lookupCalls,
      filter_isPatchStock_stockCalls, filter_isPatchStock_publishCalls]
    simp [List.filter_cons, Call.isPatchStock, newOrder]

/-- One status update that the guard lets through and whose load and save
resolve: the answer, the stored order afterwards, the stock requests among
the calls, and the state of the product service. -/
theorem updateStatus_step {σ : Type} (env : Env σ) (ctx : Ctx) (w : World σ) (id : String)
    (status : Status) (note : Option String) (stored : Order)
    (hfind : ctx.findOk = true) (hsave : ctx.saveOk = true)
    (hstored : findById w.orders id = some stored)
    (hguard : cancelRefused status stored.status = false) :
    (updateStatus env ctx w id (some status.toString) note).2
        = .json 200 (statusApplied ctx stored status note) ∧
    findById (updateStatus env ctx w id (some status.toString) note).1.orders id
        = some (statusApplied ctx stored status note) ∧
    (∃ issued : List Call,
      (updateStatus env ctx w id (some status.toString) note).1.calls = w.calls ++ issued ∧
      issued.filter Call.isPatchStock
        = (if status = .cancelled then stockCalls .add stored.items else [])) ∧
    (updateStatus env ctx w id (some status.toString) note).1.inventory
        = (if status = .cancelled then inventoryAfterStock env .add w.inventory stored.items
           else w.inventory) := by
  obtain ⟨h1, h2, h3, h4⟩ :=
    updateStatus_accepted env ctx w id status note stored hfind hsave hstored hguard
  refine ⟨h1, ?_, ⟨_, h4, ?_⟩, h3⟩
  · rw [h2]
    exact findById_replaceOrder_same w.orders id stored _ hstored
      (findById_id w.orders id stored hstored)
  · simp only [List.filter_append, filter_isPatchStock_publishCalls, List.append_nil]
    split
    · simp [filter_isPatchStock_stockCalls, List.filter_cons, Call.isPatchStock]
    · simp [List.filter_cons, Call.isPatchStock]

/-- C19: compensation is issued once per cancellation, not once per order.
After `POST /orders` has answered with an order, the three status updates
`cancelled`, `pending`, `cancelled` of that order each answer 200 (their loads
and saves resolving), and the stock requests issued since before the creation
are one `subtract` per item followed by one `add` per item twice over. -/
theorem cancel_twice_restocks_twice {σ : Type} (env : Env σ) (ctx0 ctx1 ctx2 ctx3 : Ctx)
    (w0 : World σ) (body : OrderRequest) (code : Nat) (order : Order)
    (hcreate : (createOrder env ctx0 w0 body).2 = .json code order)
    (h1 : ctx1.findOk = true ∧ ctx1.saveOk = true)
    (h2 : ctx2.findOk = true ∧ ctx2.saveOk = true)
    (h3 : ctx3.findOk = true ∧ ctx3.saveOk = true) :
    (∃ o, (handle env ctx1 (createOrder env ctx0 w0 body).1
        (.status order._id (some "cancelled") none)).2 = .json 200 o ∧ o.status = .cancelled) ∧
    (∃ o, (handle env ctx2
        (run env (createOrder env ctx0 w0 body).1
          ((cancelReopenCancel order._id ctx1 ctx2 ctx3).take 1))
        (.status order._id (some "pending") none)).2 = .json 200 o ∧ o.status = .pending) ∧
    (∃ o, (handle env ctx3
        (run env (createOrder env ctx0 w0 body).1
          ((cancelReopenCancel order._id ctx1 ctx2 ctx3).take 2))
        (.status order._id (some "cancelled") none)).2 = .json 200 o ∧ o.status = .cancelled) ∧
    ∃ issued : List Call,
      (run env (createOrder env ctx0 w0 body).1
          (cancelReopenCancel order._id ctx1 ctx2 ctx3)).calls = w0.calls ++ issued ∧
      issued.filter Call.isPatchStock
        = stockCalls .subtract order.items ++ stockCalls .add order.items
            ++ stockCalls .add order.items := by
  have hstored := createOrder_stored env ctx0 w0 body code order hcreate
  obtain ⟨issued0, hcalls0, hfilter0, -⟩ :=
    createOrder_stock_calls env ctx0 w0 body code order hcreate
  have hpending : order.status = .pending := by
    obtain ⟨-, w1, built, subtotal, -, -, -, rfl⟩ :=
      createOrder_json env ctx0 w0 body code order hcreate
    rfl
  generalize (createOrder env ctx0 w0 body).1 = w1 at hstored hcalls0 ⊢
  obtain ⟨a1, a2, ⟨issued1, a3, a4⟩, -⟩ :=
    updateStatus_step env ctx1 w1 order._id .cancelled none order h1.1 h1.2 hstored
      (by simp [cancelRefused, hpending])
  obtain ⟨b1, b2, ⟨issued2, b3, b4⟩, -⟩ :=
    updateStatus_step env ctx2 _ order._id .pending none _ h2.1 h2.2 a2
      (by simp [cancelRefused])
  obtain ⟨c1, -, ⟨issued3, c3, c4⟩, -⟩ :=
    updateStatus_step env ctx3 _ order._id .cancelled none _ h3.1 h3.2 b2
      (by simp [cancelRefused, statusApplied])
  refine ⟨⟨_, a1, rfl⟩, ⟨_, b1, rfl⟩, ⟨_, c1, rfl⟩,
    issued0 ++ issued1 ++ issued2 ++ issued3, ?_, ?_⟩
  · show (updateStatus env ctx3 (updateStatus env ctx2 (updateStatus env ctx1 w1 order._id
        (some "cancelled") none).1 order._id (some "pending") none).1 order._id
        (some "cancelled") none).1.calls = _
    rw [show (some "cancelled" : Option String) = some Status.cancelled.toString from rfl,
      show (some "pending" : Option String) = some Status.pending.toString from rfl,
      c3, b3, a3, hcalls0]
    simp [List.append_assoc]
  · simp only [List.filter_append, hfilter0, a4, b4, c4]
    simp [statusApplied]

/-- Witness of C19: a fresh order of three items, cancelled, reopened and
cancelled again while every stock request is rejected. -/
theorem cancel_twice_restocks_twice_witness :
    sampleCtx.findOk = true ∧ sampleCtx.saveOk = true ∧
    ∃ order : Order,
      (createOrder flakyEnv sampleCtx flakyWorld (mixedRequest "P1")).2 = .json 201 order ∧
      ∃ issued : List Call,
        (run flakyEnv (createOrder flakyEnv sampleCtx flakyWorld (mixedRequest "P1")).1
            (cancelReopenCancel order._id sampleCtx sampleCtx sampleCtx)).calls
          = flakyWorld.calls ++ issued ∧
        issued.filter Call.isPatchStock
          = stockCalls .subtract order.items ++ stockCalls .add order.items
              ++ stockCalls .add order.items :=
  let ⟨order, h, _⟩ := createOrder_succeeds flakyEnv sampleCtx flakyWorld (mixedRequest "P1")
    (by decide) (by decide) (by decide)
  ⟨rfl, rfl, order, h,
   (cancel_twice_restocks_twice flakyEnv sampleCtx sampleCtx sampleCtx sampleCtx flakyWorld
      (mixedRequest "P1") 201 order h ⟨rfl, rfl⟩ ⟨rfl, rfl⟩ ⟨rfl, rfl⟩).2.2.2⟩

/-! ## JavaScript arithmetic on whole numbers -/

theorem log2Aux_eq : ∀ (fuel n : Nat), n ≤ fuel → log2Aux fuel n = Nat.log2 n := by
  intro fuel
  induction fuel with
  | zero =>
    intro n hn
    have : n = 0 := Nat.le_zero.mp hn
    subst this
    simp [log2Aux, Nat.log2_zero]
  | succ fuel ih =>
    intro n hn
    rw [Nat.log2]
    by_cases h2 : n < 2
    · simp [log2Aux, h2, Nat.not_le.mpr h2]
    · have hge : n ≥ 2 := Nat.not_lt.mp h2
      have hhalf : n / 2 ≤ fuel := by omega
      simp [log2Aux, h2, hge, ih (n / 2) hhalf]

theorem binaryExponent_one (n : Nat) (hn : n ≠ 0) :
    binaryExponent n 1 = (Nat.log2 n : Int) := by
  have h1 : log2Aux 1 1 = 0 := by decide
  have hle : 2 ^ Nat.log2 n ≤ n := Nat.log2_self_le hn
  simp only [binaryExponent, log2Aux_eq n n (Nat.le_refl n), h1]
  simp [hle]

/-- A whole number up to `2 ^ 53` is a double. -/
theorem roundDouble_natCast (n : Nat) (hn : n ≤ 2 ^ 53) : roundDouble (n : ℚ) = n := by
  by_cases h0 : n = 0
  · subst h0; simp [roundDouble]
  have hq : (n : ℚ) ≠ 0 := by exact_mod_cast h0
  have hlog : Nat.log2 n ≤ 53 := by
    have : Nat.log2 n < 54 := (Nat.log2_lt h0).mpr (by omega)
    omega
  have hnotneg : ¬ ((n : ℚ) < 0) := by
    have : (0 : ℚ) ≤ n := by exact_mod_cast Nat.zero_le n
    linarith
  simp only [roundDouble, hq, if_false, Rat.num_natCast, Int.natAbs_ofNat, Rat.den_natCast,
    binaryExponent_one n h0, hnotneg]
  have hmax : max (Nat.log2 n : Int) (-1022) = (Nat.log2 n : Int) := by omega
  rw [hmax]
  by_cases hk : Nat.log2 n ≤ 52
  · have hk0 : (0 : Int) ≤ 52 - (Nat.log2 n : Int) := by omega
    have hround : ∀ m : Nat, roundHalfEven m 1 = m := by
      intro m; simp [roundHalfEven, Nat.mod_one]
    simp only [hk0, if_true, hround]
    have hpow : ((2 ^ (52 - (Nat.log2 n : Int)).toNat : Nat) : ℚ) ≠ 0 := by
      exact_mod_cast (Nat.pos_pow_of_pos _ (by norm_num)).ne'
    push_cast
    field_simp
  · have h53 : Nat.log2 n = 53 := by omega
    have hn53 : n = 2 ^ 53 := by
      have : 2 ^ 53 ≤ n := (Nat.le_log2 h0).mp (by omega)
      omega
    subst hn53
    have hk0 : ¬ ((0 : Int) ≤ 52 - (Nat.log2 (2 ^ 53) : Int)) := by omega
    simp only [hk0, if_false]
    rw [h53]
    have : roundHalfEven (2 ^ 53) (1 * 2 ^ (-(52 - ((53 : Nat) : Int))).toNat) = 2 ^ 52 := by
      decide
    rw [this]
    norm_num

theorem toDouble_natCast (n : Nat) (hn : n ≤ 2 ^ 53) : toDouble (n : ℚ) = .finite n := by
  have h1 : ¬ (maxDouble < (n : ℚ)) := by
    have : (n : ℚ) ≤ 2 ^ 53 := by exact_mod_cast hn
    have h2 : (2 : ℚ) ^ 53 ≤ maxDouble := by norm_num [maxDouble]
    linarith
  have h2 : ¬ ((n : ℚ) < -maxDouble) := by
    have : (0 : ℚ) ≤ n := by exact_mod_cast Nat.zero_le n
    have h3 : (0 : ℚ) ≤ maxDouble := by norm_num [maxDouble]
    linarith
  simp [toDouble, roundDouble_natCast n hn, h1, h2]

theorem jsAdd_natCast (a b : Nat) (h : a + b ≤ 2 ^ 53) :
    jsAdd (.finite (a : ℚ)) (.finite (b : ℚ)) = .finite ((a + b : Nat) : ℚ) := by
  show toDouble ((a : ℚ) + (b : ℚ)) = _
  rw [← Nat.cast_add]
  exact toDouble_natCast _ h

theorem jsSub_natCast (a b : Nat) (hb : b ≤ a) (h : a ≤ 2 ^ 53) :
    jsSub (.finite (a : ℚ)) (.finite (b : ℚ)) = .finite ((a - b : Nat) : ℚ) := by
  show toDouble ((a : ℚ) + -(b : ℚ)) = _
  rw [← sub_eq_add_neg, ← Nat.cast_sub hb]
  exact toDouble_natCast _ (le_trans (Nat.sub_le _ _) h)

/-! ## The order service in front of the product service -/

theorem getProductRoute_products (shop : Shop) (id : String) :
    (getProductRoute shop id).2.products = shop.products := by
  unfold getProductRoute
  split
  · rfl
  · split
    · rfl
    · split
      · rfl
      · simp only [cacheProduct]
        split <;> rfl

theorem getProductRoute_cast (shop : Shop) (id : String) :
    (getProductRoute shop id).2.castObjectId = shop.castObjectId := by
  unfold getProductRoute
  split
  · rfl
  · split
    · rfl
    · split
      · rfl
      · simp only [cacheProduct]
        split <;> rfl

theorem getProductRoute_consistent (shop : Shop) (id : String) (h : shopConsistent shop) :
    shopConsistent (getProductRoute shop id).2 := by
  unfold getProductRoute
  cases hc : getCachedProduct shop id with
  | some cached => exact h
  | none =>
    cases hcast : shop.castObjectId id with
    | none => exact h
    | some oid =>
      dsimp only
      cases hp : shop.products oid with
      | none => exact h
      | some product =>
        dsimp only
        have hself := h.1 oid product hp
        cases ho : shop.redisOpen with
        | false =>
          have e : cacheProduct shop oid product = shop := by simp [cacheProduct, ho]
          simp only [e]
          exact h
        | true =>
          refine ⟨?_, ?_⟩
          · intro k stored hk
            simp only [cacheProduct, ho, if_true] at hk ⊢
            exact h.1 k stored hk
          · intro k cached hk
            simp only [cacheProduct, getCachedProduct, ho, if_true] at hk ⊢
            by_cases hkid : k = oid
            · simp only [hkid, if_true, Option.some.injEq] at hk
              rw [hkid, ← hk]
              exact ⟨hself, hp⟩
            · simp only [hkid, if_false] at hk
              exact h.2 k cached (by simp [getCachedProduct, ho, hk])

theorem getProductRoute_found (shop : Shop) (id : String) (product : Product)
    (h : shopConsistent shop) (hf : (getProductRoute shop id).1 = .found product) :
    ∃ oid, shop.castObjectId id = some oid ∧ shop.products oid = some product := by
  unfold getProductRoute at hf
  cases hc : getCachedProduct shop id with
  | some cached =>
    simp only [hc, InventoryReply.found.injEq] at hf
    rw [← hf]
    exact ⟨id, h.2 id cached hc⟩
  | none =>
    simp only [hc] at hf
    cases hcast : shop.castObjectId id with
    | none => simp [hcast] at hf
    | some oid =>
      simp only [hcast] at hf
      cases hp : shop.products oid with
      | none => simp [hp] at hf
      | some stored =>
        simp only [hp, InventoryReply.found.injEq] at hf
        exact ⟨oid, rfl, hf ▸ hp⟩

/-- The lookups of a creation leave the stored products as they were. -/
theorem inventoryAfterLookups_products (isEmail : String → Bool) (items : List RequestItem) :
    ∀ shop : Shop,
      (inventoryAfterLookups (productService isEmail) shop items).products = shop.products := by
  induction items with
  | nil => intro shop; rfl
  | cons item rest ih =>
    intro shop
    simp only [inventoryAfterLookups]
    rw [ih]
    exact getProductRoute_products shop _

theorem inventoryAfterLookups_cast (isEmail : String → Bool) (items : List RequestItem) :
    ∀ shop : Shop,
      (inventoryAfterLookups (productService isEmail) shop items).castObjectId
        = shop.castObjectId := by
  induction items with
  | nil => intro shop; rfl
  | cons item rest ih =>
    intro shop
    simp only [inventoryAfterLookups]
    rw [ih]
    exact getProductRoute_cast shop _

/-- In a consistent product service, every item that passes names a stored
product whose stock covers the item's quantity. -/
theorem allItemsPass_stored (isEmail : String → Bool) (items : List RequestItem) :
    ∀ shop : Shop, shopConsistent shop →
      allItemsPass (productService isEmail) shop items = true →
      ∀ item ∈ items, ∃ oid product,
        shop.castObjectId item.productId = some oid ∧
        shop.products oid = some product ∧ item.quantity ≤ product.stock := by
  induction items with
  | nil => intro shop _ _ item hitem; simp at hitem
  | cons first rest ih =>
    intro shop hcoh hpass item hitem
    simp only [allItemsPass, productService] at hpass
    rcases hget : getProductRoute shop first.productId with ⟨reply, shop1⟩
    rw [hget] at hpass
    cases reply with
    | notFound => simp at hpass
    | unreachable => simp at hpass
    | found product =>
      simp only [Bool.and_eq_true, decide_eq_true_eq] at hpass
      obtain ⟨oid, hcast, hstored⟩ := getProductRoute_found shop first.productId product hcoh
        (by rw [hget])
      rcases List.mem_cons.mp hitem with rfl | hrest
      · exact ⟨oid, product, hcast, hstored, hpass.1⟩
      · have h1 : shop1 = (getProductRoute shop first.productId).2 := by rw [hget]
        have hcoh1 : shopConsistent shop1 := h1 ▸ getProductRoute_consistent shop _ hcoh
        have hprod : shop1.products = shop.products := by
          rw [h1]; exact getProductRoute_products shop _
        have hcst : shop1.castObjectId = shop.castObjectId := by
          rw [h1]; exact getProductRoute_cast shop _
        obtain ⟨oid2, q, hq0, hq1, hq2⟩ := ih shop1 hcoh1 hpass.2 item hrest
        exact ⟨oid2, q, by rw [← hcst]; exact hq0, by rw [← hprod]; exact hq1, hq2⟩

theorem askedOf_cons (cast : String → Option String) (id : String) (quantity : ℚ)
    (rest : List (String × ℚ)) (k : String) :
    askedOf cast ((id, quantity) :: rest) k
      = if cast id = some k then quantity + askedOf cast rest k else askedOf cast rest k := by
  unfold askedOf
  by_cases h : cast id = some k <;> simp [List.filter_cons, h]

theorem askedOf_nonneg (cast : String → Option String) (pairs : List (String × ℚ)) (k : String)
    (h : ∀ pair ∈ pairs, 0 < pair.2) : 0 ≤ askedOf cast pairs k := by
  induction pairs with
  | nil => simp [askedOf]
  | cons pair rest ih =>
    obtain ⟨id, quantity⟩ := pair
    rw [askedOf_cons]
    have hq : 0 < quantity := h (id, quantity) (List.mem_cons_self _ _)
    have hr := ih (fun pair hp => h pair (List.mem_cons_of_mem _ hp))
    split
    · linarith
    · exact hr

/-- What pairs of whole quantities ask of a product is a whole number. -/
theorem askedOf_natCast (cast : String → Option String) (pairs : List (String × ℚ)) (k : String)
    (h : ∀ pair ∈ pairs, ∃ m : Nat, pair.2 = m) : ∃ a : Nat, askedOf cast pairs k = a := by
  induction pairs with
  | nil => exact ⟨0, by simp [askedOf]⟩
  | cons pair rest ih =>
    obtain ⟨id, quantity⟩ := pair
    obtain ⟨m, hm⟩ := h (id, quantity) (List.mem_cons_self _ _)
    obtain ⟨a, ha⟩ := ih (fun pair hp => h pair (List.mem_cons_of_mem _ hp))
    rw [askedOf_cons]
    simp only at hm
    split
    · exact ⟨m + a, by rw [hm, ha]; push_cast; rfl⟩
    · exact ⟨a, ha⟩

/-- When no two pairs name the same product, what the pairs ask of a product
they name is the quantity of its pair. -/
theorem askedOf_nodup (cast : String → Option String) (pairs : List (String × ℚ))
    (hnodup : (pairs.map (fun pair => cast pair.1)).Nodup)
    (id : String) (quantity : ℚ) (oid : String) (hmem : (id, quantity) ∈ pairs)
    (hcast : cast id = some oid) :
    askedOf cast pairs oid = quantity := by
  induction pairs with
  | nil => simp at hmem
  | cons pair rest ih =>
    obtain ⟨id1, quantity1⟩ := pair
    simp only [List.map_cons, List.nodup_cons] at hnodup
    rw [askedOf_cons]
    have hzero : ∀ l : List (String × ℚ), some oid ∉ l.map (fun pair => cast pair.1) →
        askedOf cast l oid = 0 := by
      intro l hl
      induction l with
      | nil => simp [askedOf]
      | cons pair2 l2 ih2 =>
        obtain ⟨id2, quantity2⟩ := pair2
        simp only [List.map_cons, List.mem_cons, not_or] at hl
        rw [askedOf_cons, if_neg (fun e => hl.1 e.symm)]
        exact ih2 hl.2
    rcases List.mem_cons.mp hmem with heq | hrest
    · simp only [Prod.mk.injEq] at heq
      obtain ⟨rfl, rfl⟩ := heq
      rw [hcast] at hnodup
      simp [hcast, hzero rest hnodup.1]
    · have hne : cast id1 ≠ some oid := by
        intro e
        apply hnodup.1
        rw [e, ← hcast]
        exact List.mem_map.mpr ⟨(id, quantity), hrest, rfl⟩
      rw [if_neg hne]
      exact ih hnodup.2 hrest

theorem saveStock_cast (shop : Shop) (oid : String) (product : Product) (stock : JsNumber) :
    (saveStock shop oid product stock).2.castObjectId = shop.castObjectId := by
  unfold saveStock
  cases stock with
  | finite value => simp only; split <;> rfl
  | posInf => rfl
  | negInf => rfl
  | nan => rfl

theorem patchStockRoute_cast (shop : Shop) (id : String) (quantity : ℚ) (operation : StockOp) :
    (patchStockRoute shop id quantity operation).2.castObjectId = shop.castObjectId := by
  unfold patchStockRoute
  split
  · rfl
  · split
    · rfl
    · split
      · rfl
      · split
        · exact saveStock_cast _ _ _ _
        · split
          · rfl
          · exact saveStock_cast _ _ _ _

theorem patchStockRoute_subtract (shop : Shop) (id oid : String) (quantity : ℚ)
    (product : Product) (m n : Nat)
    (hcast : shop.castObjectId id = some oid) (hp : shop.products oid = some product)
    (hq : quantity = m) (hm : 0 < m) (hn : product.stock = n) (h53 : n ≤ 2 ^ 53)
    (hle : quantity ≤ product.stock) :
    (patchStockRoute shop id quantity .subtract).2.products
      = fun k => if k = oid then some { product with stock := product.stock - quantity }
                 else shop.products k := by
  have hmn : m ≤ n := by
    rw [hq, hn] at hle
    exact_mod_cast hle
  have h0 : quantity ≠ 0 := by
    rw [hq]
    exact_mod_cast hm.ne'
  have h1 : ¬ product.stock < quantity := not_lt.mpr hle
  have h2 : ¬ (((n - m : Nat) : ℚ) < 0) := by
    have : (0 : ℚ) ≤ ((n - m : Nat) : ℚ) := by exact_mod_cast Nat.zero_le _
    linarith
  have h3 : ((n - m : Nat) : ℚ) = product.stock - quantity := by
    rw [hq, hn, Nat.cast_sub hmn]
  unfold patchStockRoute
  simp only [h0, if_false, hcast, hp, h1]
  rw [hn, hq, jsSub_natCast n m hmn h53]
  simp only [saveStock, h2, if_false]
  rw [← hn, ← hq, h3]

theorem patchStockRoute_add (shop : Shop) (id oid : String) (quantity : ℚ)
    (product : Product) (m n : Nat)
    (hcast : shop.castObjectId id = some oid) (hp : shop.products oid = some product)
    (hq : quantity = m) (hm : 0 < m) (hn : product.stock = n) (h53 : n + m ≤ 2 ^ 53) :
    (patchStockRoute shop id quantity .add).2.products
      = fun k => if k = oid then some { product with stock := product.stock + quantity }
                 else shop.products k := by
  have h0 : quantity ≠ 0 := by
    rw [hq]
    exact_mod_cast hm.ne'
  have h2 : ¬ (((n + m : Nat) : ℚ) < 0) := by
    have : (0 : ℚ) ≤ ((n + m : Nat) : ℚ) := by exact_mod_cast Nat.zero_le _
    linarith
  have h3 : ((n + m : Nat) : ℚ) = product.stock + quantity := by
    rw [hq, hn, Nat.cast_add]
  unfold patchStockRoute
  simp only [h0, if_false, hcast, hp]
  rw [hn, hq, jsAdd_natCast n m h53]
  simp only [saveStock, h2, if_false]
  rw [← hn, ← hq, h3]

theorem inventoryAfterStock_cast (isEmail : String → Bool) (operation : StockOp)
    (items : List OrderItem) :
    ∀ shop : Shop,
      (inventoryAfterStock (productService isEmail) operation shop items).castObjectId
        = shop.castObjectId := by
  induction items with
  | nil => intro shop; rfl
  | cons item rest ih =>
    intro shop
    simp only [inventoryAfterStock]
    rw [ih]
    exact patchStockRoute_cast shop _ _ _

/-- The `subtract` requests of a creation all go through when the quantities
and the stocks are whole numbers and what the items ask of each product is
within its stock: each stored stock goes down by what is asked of the
product. -/
theorem subtract_all (isEmail : String → Bool) (items : List OrderItem) :
    ∀ shop : Shop,
      (∀ i ∈ items, ∃ m : Nat, i.quantity = m ∧ 0 < m) →
      (∀ i ∈ items, ∃ oid product, shop.castObjectId i.productId = some oid ∧
        shop.products oid = some product ∧
        (∃ n : Nat, product.stock = n ∧ n ≤ 2 ^ 53) ∧
        askedOf shop.castObjectId (pairsOf items) oid ≤ product.stock) →
      ∀ oid, (inventoryAfterStock (productService isEmail) .subtract shop items).products oid
        = (shop.products oid).map
            (fun product => { product with
              stock := product.stock - askedOf shop.castObjectId (pairsOf items) oid }) := by
  induction items with
  | nil =>
    intro shop _ _ oid
    simp only [inventoryAfterStock, pairsOf, List.map_nil, askedOf, List.filter_nil,
      List.sum_nil, sub_zero]
    cases shop.products oid <;> rfl
  | cons i rest ih =>
    intro shop hpos hfit oid
    have hposRest : ∀ j ∈ rest, ∃ m : Nat, j.quantity = m ∧ 0 < m :=
      fun j hj => hpos j (List.mem_cons_of_mem _ hj)
    have hnonneg : ∀ k, 0 ≤ askedOf shop.castObjectId (pairsOf rest) k := by
      intro k
      apply askedOf_nonneg
      intro pair hpair
      simp only [pairsOf, List.mem_map] at hpair
      obtain ⟨j, hj, rfl⟩ := hpair
      obtain ⟨m, hm, hm0⟩ := hposRest j hj
      simp only [hm]
      exact_mod_cast hm0
    have hcons : ∀ k, askedOf shop.castObjectId (pairsOf (i :: rest)) k
        = if shop.castObjectId i.productId = some k
          then i.quantity + askedOf shop.castObjectId (pairsOf rest) k
          else askedOf shop.castObjectId (pairsOf rest) k := by
      intro k
      simp only [pairsOf, List.map_cons]
      exact askedOf_cons _ _ _ _ _
    obtain ⟨oi, product, hci, hp, ⟨n, hn, h53⟩, hle⟩ := hfit i (List.mem_cons_self _ _)
    rw [hcons, if_pos hci] at hle
    obtain ⟨m, hm, hm0⟩ := hpos i (List.mem_cons_self _ _)
    have hqle : i.quantity ≤ product.stock := by linarith [hnonneg oi]
    have hmn : m ≤ n := by
      rw [hm, hn] at hqle
      exact_mod_cast hqle
    have hstep := patchStockRoute_subtract shop i.productId oi i.quantity product m n hci hp
      hm hm0 hn h53 hqle
    have hcst := patchStockRoute_cast shop i.productId i.quantity .subtract
    have hfitRest : ∀ j ∈ rest, ∃ oj q,
        (patchStockRoute shop i.productId i.quantity .subtract).2.castObjectId j.productId
          = some oj ∧
        (patchStockRoute shop i.productId i.quantity .subtract).2.products oj = some q ∧
        (∃ n : Nat, q.stock = n ∧ n ≤ 2 ^ 53) ∧
        askedOf (patchStockRoute shop i.productId i.quantity .subtract).2.castObjectId
          (pairsOf rest) oj ≤ q.stock := by
      intro j hj
      obtain ⟨oj, q, hcj, hq1, ⟨nj, hnj, hj53⟩, hq2⟩ := hfit j (List.mem_cons_of_mem _ hj)
      rw [hcons] at hq2
      rw [hcst, hstep]
      by_cases hji : oj = oi
      · rw [hji] at hcj hq1 hq2
        rw [hp] at hq1
        cases hq1
        rw [if_pos hci] at hq2
        refine ⟨oi, { product with stock := product.stock - i.quantity }, hcj, by simp,
          ⟨n - m, ?_, le_trans (Nat.sub_le _ _) h53⟩, ?_⟩
        · simp only
          rw [hn, hm, Nat.cast_sub hmn]
        · simp only
          linarith
      · have hne : ¬ shop.castObjectId i.productId = some oj := by
          rw [hci]
          intro e
          exact hji (Option.some.inj e).symm
        rw [if_neg hne] at hq2
        exact ⟨oj, q, hcj, by simp [hji, hq1], ⟨nj, hnj, hj53⟩, hq2⟩
    have := ih (patchStockRoute shop i.productId i.quantity .subtract).2 hposRest hfitRest oid
    simp only [inventoryAfterStock]
    rw [show (productService isEmail).patchStock = patchStockRoute from rfl, this, hcst, hstep,
      hcons]
    by_cases hid : oid = oi
    · rw [hid]
      simp only [if_true, hp, Option.map_some', if_pos hci, sub_sub]
    · have hne : ¬ shop.castObjectId i.productId = some oid := by
        rw [hci]
        intro e
        exact hid (Option.some.inj e).symm
      simp only [hid, if_false]
      rw [if_neg hne]

/-- The `add` requests of a cancellation all go through when the quantities
and the stocks are whole numbers and each stock with what the items ask of the
product stays within `2 ^ 53`: each stored stock goes up by what the items ask
of the product. -/
theorem add_all (isEmail : String → Bool) (items : List OrderItem) :
    ∀ shop : Shop,
      (∀ i ∈ items, ∃ m : Nat, i.quantity = m ∧ 0 < m) →
      (∀ i ∈ items, ∃ oid product, shop.castObjectId i.productId = some oid ∧
        shop.products oid = some product ∧
        ∃ n : Nat, product.stock = n ∧
          (n : ℚ) + askedOf shop.castObjectId (pairsOf items) oid ≤ 2 ^ 53) →
      ∀ oid, (inventoryAfterStock (productService isEmail) .add shop items).products oid
        = (shop.products oid).map
            (fun product => { product with
              stock := product.stock + askedOf shop.castObjectId (pairsOf items) oid }) := by
  induction items with
  | nil =>
    intro shop _ _ oid
    simp only [inventoryAfterStock, pairsOf, List.map_nil, askedOf, List.filter_nil,
      List.sum_nil, add_zero]
    cases shop.products oid <;> rfl
  | cons i rest ih =>
    intro shop hpos hfit oid
    have hposRest : ∀ j ∈ rest, ∃ m : Nat, j.quantity = m ∧ 0 < m :=
      fun j hj => hpos j (List.mem_cons_of_mem _ hj)
    have hnonneg : ∀ k, 0 ≤ askedOf shop.castObjectId (pairsOf rest) k := by
      intro k
      apply askedOf_nonneg
      intro pair hpair
      simp only [pairsOf, List.mem_map] at hpair
      obtain ⟨j, hj, rfl⟩ := hpair
      obtain ⟨m, hm, hm0⟩ := hposRest j hj
      simp only [hm]
      exact_mod_cast hm0
    have hcons : ∀ k, askedOf shop.castObjectId (pairsOf (i :: rest)) k
        = if shop.castObjectId i.productId = some k
          then i.quantity + askedOf shop.castObjectId (pairsOf rest) k
          else askedOf shop.castObjectId (pairsOf rest) k := by
      intro k
      simp only [pairsOf, List.map_cons]
      exact askedOf_cons _ _ _ _ _
    obtain ⟨oi, product, hci, hp, n, hn, hle⟩ := hfit i (List.mem_cons_self _ _)
    rw [hcons, if_pos hci] at hle
    obtain ⟨m, hm, hm0⟩ := hpos i (List.mem_cons_self _ _)
    have h53 : n + m ≤ 2 ^ 53 := by
      have : (n : ℚ) + (m : ℚ) ≤ 2 ^ 53 := by
        rw [hm] at hle
        linarith [hnonneg oi]
      exact_mod_cast this
    have hstep := patchStockRoute_add shop i.productId oi i.quantity product m n hci hp
      hm hm0 hn h53
    have hcst := patchStockRoute_cast shop i.productId i.quantity .add
    have hfitRest : ∀ j ∈ rest, ∃ oj q,
        (patchStockRoute shop i.productId i.quantity .add).2.castObjectId j.productId
          = some oj ∧
        (patchStockRoute shop i.productId i.quantity .add).2.products oj = some q ∧
        ∃ n : Nat, q.stock = n ∧
          (n : ℚ) + askedOf (patchStockRoute shop i.productId i.quantity .add).2.castObjectId
            (pairsOf rest) oj ≤ 2 ^ 53 := by
      intro j hj
      obtain ⟨oj, q, hcj, hq1, nj, hnj, hq2⟩ := hfit j (List.mem_cons_of_mem _ hj)
      rw [hcons] at hq2
      rw [hcst, hstep]
      by_cases hji : oj = oi
      · rw [hji] at hcj hq1 hq2
        rw [hp] at hq1
        cases hq1
        rw [if_pos hci] at hq2
        refine ⟨oi, { product with stock := product.stock + i.quantity }, hcj, by simp,
          n + m, ?_, ?_⟩
        · simp only
          rw [hn, hm, Nat.cast_add]
        · have e : (nj : ℚ) = n := by rw [← hnj, hn]
          rw [e, hm] at hq2
          push_cast
          linarith
      · have hne : ¬ shop.castObjectId i.productId = some oj := by
          rw [hci]
          intro e
          exact hji (Option.some.inj e).symm
        rw [if_neg hne] at hq2
        exact ⟨oj, q, hcj, by simp [hji, hq1], nj, hnj, hq2⟩
    have := ih (patchStockRoute shop i.productId i.quantity .add).2 hposRest hfitRest oid
    simp only [inventoryAfterStock]
    rw [show (productService isEmail).patchStock = patchStockRoute from rfl, this, hcst, hstep,
      hcons]
    by_cases hid : oid = oi
    · rw [hid]
      simp only [if_true, hp, Option.map_some', if_pos hci, add_assoc]
    · have hne : ¬ shop.castObjectId i.productId = some oid := by
        rw [hci]
        intro e
        exact hid (Option.some.inj e).symm
      simp only [hid, if_false]
      rw [if_neg hne]

theorem validateItems_quantity (items : List RequestItem) :
    ∀ n : Nat, validateItems items n = none → ∀ item ∈ items, 1 ≤ item.quantity := by
  induction items with
  | nil => intro n _ item hitem; simp at hitem
  | cons first rest ih =>
    intro n h item hitem
    simp only [validateItems] at h
    split_ifs at h with h1 h2
    rcases List.mem_cons.mp hitem with rfl | hrest
    · exact not_lt.mp (fun hlt => h2 (Or.inl hlt))
    · exact ih (n + 1) h item hrest

theorem validateOrder_quantity {σ : Type} (env : Env σ) (body : OrderRequest)
    (h : validateOrder env body = none) : ∀ item ∈ body.items, 1 ≤ item.quantity := by
  unfold validateOrder at h
  split at h
  · cases h
  · split at h
    · cases h
    · split at h
      · cases h
      · rename_i hv
        exact validateItems_quantity body.items 0 hv

/-- What a creation answered with an order tells about the request and the
order. -/
theorem createOrder_facts {σ : Type} (env : Env σ) (ctx : Ctx) (w : World σ)
    (body : OrderRequest) (code : Nat) (order : Order)
    (h : (createOrder env ctx w body).2 = .json code order) :
    validateOrder env body = none ∧
    allItemsPass env w.inventory body.items = true ∧
    pairsOf order.items = body.items.map (fun i => (i.productId, i.quantity)) ∧
    order.status = .pending := by
  obtain ⟨hvalid, w1, built, subtotal, hcollect, -, -, rfl⟩ :=
    createOrder_json env ctx w body code order h
  obtain ⟨hpass, -⟩ := collectItems_ok env body.items w w1 [] built 0 subtotal hcollect
  obtain ⟨built2, h1, -, -, -, h5, -⟩ := collectItems_pass env body.items w [] 0 hpass
  rw [hcollect] at h1
  simp only [List.nil_append, Except.ok.injEq, Prod.mk.injEq] at h1
  refine ⟨hvalid, hpass, ?_, rfl⟩
  show pairsOf built = _
  rw [h1.1]
  exact h5

/-- C18, as stated, fails, in two ways.  In front of a product service that
stores one product with 10 in stock, a request with two items of that product,
6 units each, is answered 201 (each item is checked against the whole stock);
the first `subtract` leaves 4, the second is refused; the cancellation that
follows is answered 200 and adds 6 twice: the stock ends at 16, not at 10.
And in front of a product service that stores one product with 3.4 in stock, a
request for 1.2 of it is answered 201 and leaves the stock at the double 2.2;
the cancellation that follows is answered 200 and adds 1.2: the stock ends at
the double 3.4000000000000004, not at 3.4. -/
theorem create_then_cancel_overrestores :
    ((createOrder (productService (fun _ => true)) sampleCtx shopWorld (doubleRequest 6 6)).2
      = .json 201 doubleOrder ∧
    stockOf shopWorld.inventory "64b000000000000000000001" = some 10 ∧
    stockOf (createOrder (productService (fun _ => true)) sampleCtx shopWorld
        (doubleRequest 6 6)).1.inventory "64b000000000000000000001" = some 4 ∧
    (updateStatus (productService (fun _ => true)) sampleCtx
        (createOrder (productService (fun _ => true)) sampleCtx shopWorld
          (doubleRequest 6 6)).1
        doubleOrder._id (some "cancelled") none).2
      = .json 200 (statusApplied sampleCtx doubleOrder .cancelled none) ∧
    stockOf (updateStatus (productService (fun _ => true)) sampleCtx
        (createOrder (productService (fun _ => true)) sampleCtx shopWorld
          (doubleRequest 6 6)).1
        doubleOrder._id (some "cancelled") none).1.inventory "64b000000000000000000001"
      = some 16) ∧
    ((createOrder (productService (fun _ => true)) sampleCtx ribbonWorld ribbonRequest).2
      = .json 201 ribbonOrder ∧
    stockOf ribbonWorld.inventory "64b000000000000000000002" = some stock34 ∧
    stockOf (createOrder (productService (fun _ => true)) sampleCtx ribbonWorld
        ribbonRequest).1.inventory "64b000000000000000000002"
      = some (2476979795053773 / 1125899906842624) ∧
    (updateStatus (productService (fun _ => true)) sampleCtx
        (createOrder (productService (fun _ => true)) sampleCtx ribbonWorld ribbonRequest).1
        ribbonOrder._id (some "cancelled") none).2
      = .json 200 (statusApplied sampleCtx ribbonOrder .cancelled none) ∧
    stockOf (updateStatus (productService (fun _ => true)) sampleCtx
        (createOrder (productService (fun _ => true)) sampleCtx ribbonWorld ribbonRequest).1
        ribbonOrder._id (some "cancelled") none).1.inventory "64b000000000000000000002"
      = some (1914029841632461 / 562949953421312) ∧
    (1914029841632461 / 562949953421312 : ℚ) ≠ stock34) := by
  decide!

/-- C18, amended: in front of the product service (in a consistent state, its
database calls resolving), for every creation request answered with an order
whose quantities are whole numbers, that names products whose stocks are whole
numbers up to `2 ^ 53`, and in which no two items name the same product, or in
which the quantities asked of each product sum to at most its stored stock,
the cancellation of that order right after the creation is answered 200 (its
load and save resolving) and leaves every stored product, and so every stock,
as it was before the creation. -/
theorem create_then_cancel_restores (isEmail : String → Bool) (ctx0 ctx1 : Ctx)
    (w : World Shop) (body : OrderRequest) (code : Nat) (order : Order)
    (note : Option String)
    (hcons : shopConsistent w.inventory)
    (hcreate : (createOrder (productService isEmail) ctx0 w body).2 = .json code order)
    (hwhole : (∀ item ∈ body.items, ∃ m : Nat, item.quantity = m) ∧
      ∀ item ∈ body.items, ∀ oid product,
        w.inventory.castObjectId item.productId = some oid →
        w.inventory.products oid = some product →
        ∃ n : Nat, product.stock = n ∧ n ≤ 2 ^ 53)
    (hfit : (body.items.map (fun i => w.inventory.castObjectId i.productId)).Nodup ∨
      ∀ oid product, w.inventory.products oid = some product →
        requested w.inventory.castObjectId body.items oid ≤ product.stock)
    (hctx : ctx1.findOk = true ∧ ctx1.saveOk = true) :
    (∃ cancelled : Order,
      (updateStatus (productService isEmail) ctx1
        (createOrder (productService isEmail) ctx0 w body).1 order._id
        (some "cancelled") note).2 = .json 200 cancelled ∧
      cancelled.status = .cancelled) ∧
    (∀ oid, (updateStatus (productService isEmail) ctx1
        (createOrder (productService isEmail) ctx0 w body).1 order._id
        (some "cancelled") note).1.inventory.products oid = w.inventory.products oid) ∧
    (∀ oid, stockOf (updateStatus (productService isEmail) ctx1
        (createOrder (productService isEmail) ctx0 w body).1 order._id
        (some "cancelled") note).1.inventory oid = stockOf w.inventory oid) := by
  obtain ⟨hvalid, hpass, hpairs, hpending⟩ :=
    createOrder_facts (productService isEmail) ctx0 w body code order hcreate
  have hstored := createOrder_stored (productService isEmail) ctx0 w body code order hcreate
  obtain ⟨-, -, -, hinv⟩ :=
    createOrder_stock_calls (productService isEmail) ctx0 w body code order hcreate
  -- every order item is a request item
  have hmem : ∀ i ∈ order.items, ∃ item ∈ body.items,
      item.productId = i.productId ∧ item.quantity = i.quantity := by
    intro i hi
    have : (i.productId, i.quantity) ∈ pairsOf order.items :=
      List.mem_map.mpr ⟨i, hi, rfl⟩
    rw [hpairs] at this
    obtain ⟨item, hitem, heq⟩ := List.mem_map.mp this
    simp only [Prod.mk.injEq] at heq
    exact ⟨item, hitem, heq.1, heq.2⟩
  have hpos : ∀ i ∈ order.items, ∃ m : Nat, i.quantity = m ∧ 0 < m := by
    intro i hi
    obtain ⟨item, hitem, -, hq⟩ := hmem i hi
    have h1 := validateOrder_quantity (productService isEmail) body hvalid item hitem
    obtain ⟨m, hm⟩ := hwhole.1 item hitem
    refine ⟨m, by rw [← hq, hm], ?_⟩
    rw [hm] at h1
    have : 1 ≤ m := by exact_mod_cast h1
    omega
  have hwholePairs : ∀ pair ∈ pairsOf order.items, ∃ m : Nat, pair.2 = m := by
    intro pair hpair
    simp only [pairsOf, List.mem_map] at hpair
    obtain ⟨i, hi, rfl⟩ := hpair
    obtain ⟨m, hm, -⟩ := hpos i hi
    exact ⟨m, hm⟩
  -- every order item names a stored product, within what its stock allows
  have hfit2 : ∀ i ∈ order.items, ∃ oid product,
      w.inventory.castObjectId i.productId = some oid ∧
      w.inventory.products oid = some product ∧
      (∃ n : Nat, product.stock = n ∧ n ≤ 2 ^ 53) ∧
      askedOf w.inventory.castObjectId (pairsOf order.items) oid ≤ product.stock := by
    intro i hi
    obtain ⟨item, hitem, hid, hq⟩ := hmem i hi
    obtain ⟨oid, product, hc, hp, hle⟩ :=
      allItemsPass_stored isEmail body.items w.inventory hcons hpass item hitem
    have hn := hwhole.2 item hitem oid product hc hp
    rw [hid] at hc
    refine ⟨oid, product, hc, hp, hn, ?_⟩
    rcases hfit with hnodup | hsum
    · have hnd : ((pairsOf order.items).map
          (fun pair => w.inventory.castObjectId pair.1)).Nodup := by
        rw [hpairs, List.map_map]
        exact hnodup
      rw [askedOf_nodup w.inventory.castObjectId (pairsOf order.items) hnd i.productId
        i.quantity oid (List.mem_map.mpr ⟨i, hi, rfl⟩) hc, ← hq]
      exact hle
    · have := hsum oid product hp
      rw [hpairs]
      exact this
  -- the stored products after the creation
  have hlook := inventoryAfterLookups_products isEmail body.items w.inventory
  have hlookc := inventoryAfterLookups_cast isEmail body.items w.inventory
  have hsub := subtract_all isEmail order.items
    (inventoryAfterLookups (productService isEmail) w.inventory body.items) hpos
    (by rw [hlook, hlookc]; exact hfit2)
  rw [← hinv, hlook, hlookc] at hsub
  have hcc : (createOrder (productService isEmail) ctx0 w body).1.inventory.castObjectId
      = w.inventory.castObjectId := by
    rw [hinv, inventoryAfterStock_cast, hlookc]
  -- the cancellation
  obtain ⟨c1, -, -, c4⟩ :=
    updateStatus_step (productService isEmail) ctx1
      (createOrder (productService isEmail) ctx0 w body).1 order._id .cancelled note order
      hctx.1 hctx.2 hstored (by simp [cancelRefused, hpending])
  have hadd := add_all isEmail order.items
    (createOrder (productService isEmail) ctx0 w body).1.inventory hpos
    (by
      intro i hi
      obtain ⟨oid, product, hc, hp, ⟨n, hn, h53⟩, hle⟩ := hfit2 i hi
      obtain ⟨a, ha⟩ := askedOf_natCast w.inventory.castObjectId (pairsOf order.items) oid
        hwholePairs
      have han : a ≤ n := by
        rw [ha, hn] at hle
        exact_mod_cast hle
      rw [hcc]
      refine ⟨oid,
        { name := product.name, price := product.price,
          stock := product.stock - askedOf w.inventory.castObjectId (pairsOf order.items) oid },
        hc, by rw [hsub, hp]; rfl, n - a, ?_, ?_⟩
      · simp only
        rw [hn, ha, Nat.cast_sub han]
      · rw [ha, Nat.cast_sub han]
        have : (n : ℚ) ≤ 2 ^ 53 := by exact_mod_cast h53
        linarith)
  have hproducts : ∀ oid, (updateStatus (productService isEmail) ctx1
      (createOrder (productService isEmail) ctx0 w body).1 order._id
      (some "cancelled") note).1.inventory.products oid = w.inventory.products oid := by
    intro oid
    have e : (some "cancelled" : Option String) = some Status.cancelled.toString := rfl
    rw [e, c4, if_pos rfl, hadd, hcc, hsub]
    cases w.inventory.products oid with
    | none => rfl
    | some product =>
      obtain ⟨name, price, stock⟩ := product
      simp
  refine ⟨⟨_, c1, rfl⟩, hproducts, ?_⟩
  intro oid
  simp only [stockOf, hproducts]

/-- Witness of C18, amended: 4 and 6 units of the one product of `widgetShop`
against a stock of 10. -/
theorem create_then_cancel_restores_witness :
    shopConsistent shopWorld.inventory ∧
    ((∀ item ∈ (doubleRequest 4 6).items, ∃ m : Nat, item.quantity = m) ∧
      ∀ item ∈ (doubleRequest 4 6).items, ∀ oid product,
        shopWorld.inventory.castObjectId item.productId = some oid →
        shopWorld.inventory.products oid = some product →
        ∃ n : Nat, product.stock = n ∧ n ≤ 2 ^ 53) ∧
    (∀ oid product, shopWorld.inventory.products oid = some product →
      requested shopWorld.inventory.castObjectId (doubleRequest 4 6).items oid
        ≤ product.stock) ∧
    sampleCtx.findOk = true ∧ sampleCtx.saveOk = true ∧
    ∃ order : Order,
      (createOrder (productService (fun _ => true)) sampleCtx shopWorld
        (doubleRequest 4 6)).2 = .json 201 order ∧
      ∀ oid, stockOf (updateStatus (productService (fun _ => true)) sampleCtx
        (createOrder (productService (fun _ => true)) sampleCtx shopWorld
          (doubleRequest 4 6)).1 order._id (some "cancelled") none).1.inventory oid
        = stockOf shopWorld.inventory oid :=
  have hstock : ∀ oid product, shopWorld.inventory.products oid = some product →
      oid = "64b000000000000000000001" ∧ product.stock = 10 := by
    intro oid product hp
    simp only [shopWorld, widgetShop] at hp
    split at hp
    · rename_i hoid
      cases hp
      exact ⟨hoid, rfl⟩
    · cases hp
  have hcons : shopConsistent shopWorld.inventory := by
    refine ⟨?_, ?_⟩
    · intro oid product hp
      rw [(hstock oid product hp).1]
      decide
    · intro id cached h
      simp [getCachedProduct, shopWorld, widgetShop] at h
  have hwhole : (∀ item ∈ (doubleRequest 4 6).items, ∃ m : Nat, item.quantity = m) ∧
      ∀ item ∈ (doubleRequest 4 6).items, ∀ oid product,
        shopWorld.inventory.castObjectId item.productId = some oid →
        shopWorld.inventory.products oid = some product →
        ∃ n : Nat, product.stock = n ∧ n ≤ 2 ^ 53 := by
    refine ⟨?_, ?_⟩
    · intro item hitem
      simp only [doubleRequest, List.mem_cons, List.mem_singleton, List.not_mem_nil,
        or_false] at hitem
      rcases hitem with rfl | rfl
      · exact ⟨4, by norm_num⟩
      · exact ⟨6, by norm_num⟩
    · intro item _ oid product _ hp
      exact ⟨10, by rw [(hstock oid product hp).2]; norm_num, by norm_num⟩
  have hfit : ∀ oid product, shopWorld.inventory.products oid = some product →
      requested shopWorld.inventory.castObjectId (doubleRequest 4 6).items oid
        ≤ product.stock := by
    intro oid product hp
    rw [(hstock oid product hp).1, (hstock oid product hp).2]
    decide!
  let ⟨order, hcreate, _⟩ :=
    createOrder_succeeds (productService (fun _ => true)) sampleCtx shopWorld
      (doubleRequest 4 6) (by decide) (by decide) (by decide)
  ⟨hcons, hwhole, hfit, rfl, rfl, order, hcreate,
   (create_then_cancel_restores (fun _ => true) sampleCtx sampleCtx shopWorld
      (doubleRequest 4 6) 201 order none hcons hcreate hwhole (Or.inr hfit) ⟨rfl, rfl⟩).2.2⟩

end OrderService
